import Mathlib

/-!
# krew: download, extraction, installation and removal of plugins

A shallow embedding of `pkg/download/downloader.go`, `pkg/installation/install.go`,
`pkg/environment/environment.go` and the install loop of `cmd/krew/cmd/install.go`.

* Go strings are Lean strings; a path string is turned into a `PathKey` (its cleaned list of
  elements) only where the operating system resolves it.
* The file system is an association list from `PathKey` to `Node`.  Paths are slash separated.
* `os.Lstat`, `os.Stat`, `os.Remove`, `os.RemoveAll` and `os.Symlink` resolve a path element by
  element: every directory on the way has to exist (else `ENOENT`), be a directory (else
  `ENOTDIR`) and be searchable (else `EACCES`); a symbolic link is followed only as the last
  element of a path.  The process owns every node and is not the superuser, so the owner bits of
  a mode decide what it may do.  `os.MkdirAll` and `os.OpenFile` work on the cleaned path.
* A Go function `f(args) error` that touches the file system is a function
  `args → World → Option Err × World`; `World` carries the file system and the list of calls
  made so far, in order.
* Collaborators that are not part of the embedded files (the archive readers of the Go standard
  library, the HTTP fetcher, the checksum verifier, `findInstalledPluginVersion`,
  `getDownloadTarget`, `moveToInstallDir`, `pathutil.IsSubPath`) are fields of `Env`.
-/

namespace Krew

/-! ## Bytes, errors -/

abbrev Bytes := List Nat

/-- Error numbers of the system calls used. -/
inductive Errno
  | ENOENT | EEXIST | ENOTDIR | EISDIR | ELOOP | EACCES | ENOTEMPTY | EBUSY
  deriving DecidableEq, Repr

/-- Go `error` values.  The three sentinels of `installation` are compared by identity in the
source, so each is a constructor of its own; `errorf` is a `fmt.Errorf` value without an error
among its arguments, `wrapf` one that formats another error with `%v`. -/
inductive Err
  | ErrIsAlreadyInstalled
  | ErrIsNotInstalled
  | ErrIsAlreadyUpgraded
  | errorf (format : String) (args : List String)
  | wrapf (format : String) (args : List String) (cause : Err)
  | sys (op : String) (path : String) (errno : Errno)
  | ext (what : String)
  deriving DecidableEq, Repr

/-- The check `os.IsNotExist(err)`. -/
def os.IsNotExist : Option Err → Bool
  | some (Err.sys _ _ Errno.ENOENT) => true
  | _ => false

/-! ## Strings and paths (`strings`, `path`, `path/filepath`) -/

/-- The function `strings.HasSuffix`. -/
def strings.HasSuffix (s suffix : String) : Bool :=
  suffix.data.isSuffixOf s.data

/-- Replace every non-overlapping occurrence of the non-empty `old` by `new`, left to right;
`skip` counts the characters of a matched occurrence still to be passed over. -/
def replaceAll (old new : List Char) : Nat → List Char → List Char
  | _, [] => []
  | skip + 1, _ :: cs => replaceAll old new skip cs
  | 0, c :: cs =>
    if old.isPrefixOf (c :: cs) ∧ old ≠ [] then new ++ replaceAll old new (old.length - 1) cs
    else c :: replaceAll old new 0 cs

/-- The call `strings.Replace(s, old, new, -1)` for a non-empty `old`. -/
def strings.Replace (s old new : String) : String :=
  String.mk (replaceAll old.data new.data 0 s.data)

/-- Split at every slash; `"/a//b"` gives `["", "a", "", "b"]`. -/
def splitSlash : List Char → List (List Char)
  | [] => [[]]
  | c :: cs =>
    match splitSlash cs with
    | [] => [[]]
    | e :: es => if c = '/' then [] :: e :: es else (c :: e) :: es

/-- The elements of a path string, empty ones included. -/
def rawElems (s : String) : List String :=
  (splitSlash s.data).map String.mk

/-- The element pass of `filepath.Clean`: drop empty and `.` elements, let `..` cancel the
element before it, drop `..` at the root, keep leading `..` of a relative path.  `acc` holds the
elements kept so far, last first. -/
def cleanElems (rooted : Bool) : List String → List String → List String
  | [], acc => acc.reverse
  | e :: es, acc =>
    if e = "" ∨ e = "." then cleanElems rooted es acc
    else if e = ".." then
      match acc with
      | [] => if rooted then cleanElems rooted es [] else cleanElems rooted es [".."]
      | a :: acc1 =>
        if a = ".." then cleanElems rooted es (".." :: a :: acc1)
        else cleanElems rooted es acc1
    else cleanElems rooted es (e :: acc)

/-- A cleaned path: whether it starts at the root, and its elements. -/
structure PathKey where
  rooted : Bool
  elems : List String
  deriving DecidableEq, Repr

/-- The path a string names, resolved lexically. -/
def keyOf (s : String) : PathKey :=
  let rooted := s.data.head? = some '/'
  ⟨rooted, cleanElems rooted (rawElems s) []⟩

/-- The elements joined by slashes. -/
def joinSlash : List String → List Char
  | [] => []
  | [e] => e.data
  | e :: es => e.data ++ '/' :: joinSlash es

/-- The string of a cleaned path. -/
def PathKey.render (k : PathKey) : String :=
  if k.rooted then String.mk ('/' :: joinSlash k.elems)
  else if k.elems = [] then "." else String.mk (joinSlash k.elems)

/-- The function `filepath.Clean`. -/
def filepath.Clean (s : String) : String := (keyOf s).render

/-- The function `filepath.FromSlash`; the separator is the slash. -/
def filepath.FromSlash (s : String) : String := s

/-- The function `filepath.Join`: the elements from the first non-empty one on are joined with
the separator and cleaned; with no non-empty element the result is empty. -/
def filepath.Join : List String → String
  | [] => ""
  | e :: es => if e ≠ "" then filepath.Clean (String.mk (joinSlash (e :: es))) else filepath.Join es

/-- The function `filepath.IsAbs`. -/
def filepath.IsAbs (s : String) : Bool := s.data.head? = some '/'

/-- The function `path.Base`: the last element of the path, trailing slashes removed. -/
def path.Base (s : String) : String :=
  if s = "" then "."
  else
    let stripped := (s.data.reverse.dropWhile (fun c => c = '/'))
    let last := (stripped.takeWhile (fun c => c ≠ '/')).reverse
    if last = [] then "/" else String.mk last

/-- The directory holding `k`. -/
def PathKey.parent (k : PathKey) : PathKey := ⟨k.rooted, k.elems.dropLast⟩

/-- Whether `k` is `t` or lies below `t`: same kind of path, the elements of `t` come first, and
what follows does not climb out with `..`. -/
def PathKey.within (t k : PathKey) : Bool :=
  t.rooted = k.rooted ∧ t.elems.isPrefixOf k.elems ∧ (k.elems.drop t.elems.length).head? ≠ some ".."

/-! ## File system -/

/-- What a path can hold. -/
inductive Node
  | dir (mode : Nat)
  | file (mode : Nat) (data : Bytes)
  | symlink (target : String)
  deriving DecidableEq, Repr

/-- The file system: the nodes other than the root, by path. -/
abbrev FS := List (PathKey × Node)

/-- First node stored under `k`. -/
def FS.find (fs : FS) (k : PathKey) : Option Node :=
  match fs with
  | [] => none
  | (k1, n) :: rest => if k1 = k then some n else FS.find rest k

/-- The node at `k`; the root and the working directory are directories that always exist. -/
def FS.get (fs : FS) (k : PathKey) : Option Node :=
  if k.elems = [] then some (Node.dir 0o755) else fs.find k

/-- Remove the node at `k`. -/
def FS.del (fs : FS) (k : PathKey) : FS :=
  fs.filter (fun e => e.1 ≠ k)

/-- Store `n` at `k`, replacing what was there. -/
def FS.put (fs : FS) (k : PathKey) (n : Node) : FS :=
  (k, n) :: fs.del k

/-- The path a symbolic link at `link` with the given target points to. -/
def linkTarget (link : PathKey) (target : String) : PathKey :=
  if filepath.IsAbs target then keyOf target
  else ⟨link.rooted, cleanElems link.rooted (link.parent.elems ++ rawElems target) []⟩

/-- Follow symbolic links at the last element, at most `fuel` of them. -/
def FS.resolve (fs : FS) (op path : String) : Nat → PathKey → Except Err PathKey
  | 0, _ => .error (Err.sys op path Errno.ELOOP)
  | fuel + 1, k =>
    match fs.get k with
    | some (Node.symlink target) => FS.resolve fs op path fuel (linkTarget k target)
    | _ => .ok k

/-- Number of symbolic links followed before giving up. -/
def maxSymlinks : Nat := 40

/-- The owner's read bit of a mode.  The process owns every node and is not the superuser. -/
def ownerRead (mode : Nat) : Bool := mode / 256 % 2 = 1

/-- The owner's write bit of a mode. -/
def ownerWrite (mode : Nat) : Bool := mode / 128 % 2 = 1

/-- The owner's search (execute) bit of a mode. -/
def ownerExec (mode : Nat) : Bool := mode / 64 % 2 = 1

/-- Looking a name up in the directory at `k`: `k` must exist (else `ENOENT`), be a directory
(else `ENOTDIR`; a symbolic link in this position is not followed) and be searchable (else
`EACCES`). -/
def FS.enter (fs : FS) (op path : String) (k : PathKey) : Option Err :=
  match fs.get k with
  | some (Node.dir mode) =>
    if ownerExec mode then none else some (Err.sys op path Errno.EACCES)
  | some _ => some (Err.sys op path Errno.ENOTDIR)
  | none => some (Err.sys op path Errno.ENOENT)

/-- One element of a path applied to the directory whose elements, last first, are `acc`: `.`
and an empty element stay there, `..` goes to the parent (the root is its own parent), a name
goes down.  This is the step `cleanElems` makes. -/
def stepInto (rooted : Bool) (e : String) (acc : List String) : List String :=
  if e = "" ∨ e = "." then acc
  else if e = ".." then
    match acc with
    | [] => if rooted then [] else [".."]
    | a :: acc1 => if a = ".." then ".." :: a :: acc1 else acc1
  else e :: acc

/-- Resolve the elements of a path one by one, as the kernel does, starting in the directory
whose elements, last first, are `acc`.  Each element is looked up in the directory reached so
far, so every directory on the way has to exist and be searchable.  The result is the key of the
last element, which itself is not looked up. -/
def FS.walk (fs : FS) (op path : String) (rooted : Bool) :
    List String → List String → Except Err PathKey
  | [], acc => .ok ⟨rooted, acc.reverse⟩
  | e :: es, acc =>
    match fs.enter op path ⟨rooted, acc.reverse⟩ with
    | some err => .error err
    | none => FS.walk fs op path rooted es (stepInto rooted e acc)

/-- The key a path string names, found by resolving it; the empty path names nothing. -/
def FS.locate (fs : FS) (op path : String) : Except Err PathKey :=
  if path = "" then .error (Err.sys op path Errno.ENOENT)
  else fs.walk op path (path.data.head? = some '/') (rawElems path) []

/-- Follow symbolic links at the last element, at most `fuel` of them, resolving each target
from the directory of its link. -/
def FS.follow (fs : FS) (op path : String) : Nat → PathKey → Except Err PathKey
  | 0, _ => .error (Err.sys op path Errno.ELOOP)
  | fuel + 1, k =>
    match fs.get k with
    | some (Node.symlink target) =>
      if target = "" then .error (Err.sys op path Errno.ENOENT)
      else
        match (if filepath.IsAbs target then fs.walk op path true (rawElems target) []
          else fs.walk op path k.rooted (rawElems target) k.parent.elems.reverse) with
        | .error err => .error err
        | .ok k1 => FS.follow fs op path fuel k1
    | _ => .ok k

/-- The call `os.Lstat`. -/
def os.Lstat (fs : FS) (path : String) : Except Err Node :=
  match fs.locate "lstat" path with
  | .error err => .error err
  | .ok k =>
    match fs.get k with
    | some n => .ok n
    | none => .error (Err.sys "lstat" path Errno.ENOENT)

/-- The check `os.MkdirAll` makes of a path given by its key. -/
def statKey (fs : FS) (path : String) (k : PathKey) : Except Err Node :=
  match fs.resolve "stat" path maxSymlinks k with
  | .error e => .error e
  | .ok k1 =>
    match fs.get k1 with
    | some n => .ok n
    | none => .error (Err.sys "stat" path Errno.ENOENT)

/-- The call `os.Stat`. -/
def os.Stat (fs : FS) (path : String) : Except Err Node :=
  match fs.locate "stat" path with
  | .error err => .error err
  | .ok k =>
    match fs.follow "stat" path maxSymlinks k with
    | .error err => .error err
    | .ok k1 =>
      match fs.get k1 with
      | some n => .ok n
      | none => .error (Err.sys "stat" path Errno.ENOENT)

/-- The call `os.Mkdir` on a path given by its key: the path must be free and its parent a
directory. -/
def mkdirKey (fs : FS) (path : String) (k : PathKey) (mode : Nat) : Option Err × FS :=
  match fs.get k with
  | some _ => (some (Err.sys "mkdir" path Errno.EEXIST), fs)
  | none =>
    match fs.get k.parent with
    | some (Node.dir _) => (none, fs.put k (Node.dir mode))
    | some _ => (some (Err.sys "mkdir" path Errno.ENOTDIR), fs)
    | none => (some (Err.sys "mkdir" path Errno.ENOENT), fs)

/-- The recursion of `os.MkdirAll` over the elements of the path, last element first: a path
that is a directory is left alone, one that is something else is an error, a missing one is
made after its parent. -/
def mkdirAllRev (path : String) (rooted : Bool) (mode : Nat) : List String → FS → Option Err × FS
  | [], fs => (none, fs)
  | e :: parentRev, fs =>
    let k : PathKey := ⟨rooted, (e :: parentRev).reverse⟩
    match statKey fs path k with
    | .ok (Node.dir _) => (none, fs)
    | .ok _ => (some (Err.sys "mkdir" path Errno.ENOTDIR), fs)
    | .error _ =>
      match mkdirAllRev path rooted mode parentRev fs with
      | (some err, fs1) => (some err, fs1)
      | (none, fs1) => mkdirKey fs1 path k mode

/-- The call `os.MkdirAll`. -/
def os.MkdirAll (fs : FS) (path : String) (mode : Nat) : Option Err × FS :=
  mkdirAllRev path (keyOf path).rooted mode (keyOf path).elems.reverse fs

/-- The call `os.OpenFile(path, O_CREATE|O_WRONLY[|O_TRUNC], mode)`: the file system after the
open and the file opened. -/
def os.OpenFile (fs : FS) (path : String) (trunc : Bool) (mode : Nat) : Except Err (FS × PathKey) :=
  match fs.resolve "open" path maxSymlinks (keyOf path) with
  | .error e => .error e
  | .ok k =>
    match fs.get k with
    | some (Node.dir _) => .error (Err.sys "open" path Errno.EISDIR)
    | some (Node.file m _) => .ok (if trunc then fs.put k (Node.file m []) else fs, k)
    | some (Node.symlink _) => .error (Err.sys "open" path Errno.ELOOP)
    | none =>
      match fs.get k.parent with
      | some (Node.dir _) => .ok (fs.put k (Node.file mode []), k)
      | some _ => .error (Err.sys "open" path Errno.ENOTDIR)
      | none => .error (Err.sys "open" path Errno.ENOENT)

/-- Write `data` from the start of the open file `k`, as `io.Copy` into a fresh handle does. -/
def writeFile (fs : FS) (k : PathKey) (data : Bytes) : FS :=
  match fs.get k with
  | some (Node.file m old) => fs.put k (Node.file m (data ++ old.drop data.length))
  | _ => fs

/-- Whether an entry may be added to or removed from the directory holding `k`: that directory
must be writable and searchable. -/
def FS.parentWritable (fs : FS) (k : PathKey) : Bool :=
  match fs.get k.parent with
  | some (Node.dir mode) => ownerWrite mode && ownerExec mode
  | _ => false

/-- Whether the directory holding `k` is searchable. -/
def FS.parentSearchable (fs : FS) (k : PathKey) : Bool :=
  match fs.get k.parent with
  | some (Node.dir mode) => ownerExec mode
  | _ => false

/-- The keys directly below `k`. -/
def FS.children (fs : FS) (k : PathKey) : List PathKey :=
  (fs.map (fun e => e.1)).filter (fun c => c.elems ≠ [] ∧ c.parent = k)

/-- The system call behind `os.Remove` at a resolved key: the entry must exist, must not be the
root or the working directory, its directory must be writable, and a directory must be empty. -/
def unlinkKey (fs : FS) (path : String) (k : PathKey) : Option Err × FS :=
  match fs.get k with
  | none => (some (Err.sys "remove" path Errno.ENOENT), fs)
  | some n =>
    if k.elems = [] then (some (Err.sys "remove" path Errno.EBUSY), fs)
    else if ¬ fs.parentWritable k then (some (Err.sys "remove" path Errno.EACCES), fs)
    else
      match n with
      | Node.dir _ =>
        if fs.any (fun e => k.within e.1 ∧ e.1 ≠ k)
        then (some (Err.sys "remove" path Errno.ENOTEMPTY), fs)
        else (none, fs.del k)
      | _ => (none, fs.del k)

/-- The call `os.Remove`: removes a file, a symbolic link or an empty directory. -/
def os.Remove (fs : FS) (path : String) : Option Err × FS :=
  match fs.locate "remove" path with
  | .error err => (some err, fs)
  | .ok k => unlinkKey fs path k

/-- The recursion of `os.RemoveAll` at a resolved key, at most `depth` levels deep: try to
remove the entry; if that fails for a directory, open it (it must be readable), remove each
child in turn keeping the first error, then try to remove the directory again. -/
def removeAllKey (path : String) : Nat → FS → PathKey → Option Err × FS
  | 0, fs, _ => (some (Err.sys "RemoveAll" path Errno.ELOOP), fs)
  | depth + 1, fs, k =>
    match unlinkKey fs path k with
    | (none, fs1) => (none, fs1)
    | (some err, _) =>
      if os.IsNotExist (some err) then (none, fs)
      else if ¬ fs.parentSearchable k then (some (Err.sys "lstat" path Errno.EACCES), fs)
      else
        match fs.get k with
        | some (Node.dir mode) =>
          if ¬ ownerRead mode then (some (Err.sys "open" path Errno.EACCES), fs)
          else
            let r := (fs.children k).foldl
              (fun (acc : Option Err × FS) c =>
                let rc := removeAllKey path depth acc.2 c
                (if acc.1 = none then rc.1 else acc.1, rc.2))
              (none, fs)
            match unlinkKey r.2 path k with
            | (none, fs2) => (none, fs2)
            | (some err1, fs2) =>
              if os.IsNotExist (some err1) then (none, fs2) else (some (r.1.getD err1), fs2)
        | _ => (some err, fs)

/-- The call `os.RemoveAll`: a path that does not exist, or that lies under something that is
not a directory, is no error; otherwise the tree is removed as far as the modes of its
directories allow, and the first error is returned.  The depth of a tree is at most the number
of entries. -/
def os.RemoveAll (fs : FS) (path : String) : Option Err × FS :=
  if path = "" then (none, fs)
  else
    match fs.locate "remove" path with
    | .error (Err.sys _ _ Errno.ENOENT) => (none, fs)
    | .error (Err.sys _ _ Errno.ENOTDIR) => (none, fs)
    | .error err => (some err, fs)
    | .ok k => removeAllKey path (fs.length + 1) fs k

/-- The call `os.Symlink(oldname, newname)`: `newname` must be free and its directory
writable. -/
def os.Symlink (fs : FS) (oldname newname : String) : Option Err × FS :=
  match fs.locate "symlink" newname with
  | .error err => (some err, fs)
  | .ok k =>
    match fs.get k with
    | some _ => (some (Err.sys "symlink" newname Errno.EEXIST), fs)
    | none =>
      match fs.get k.parent with
      | some (Node.dir mode) =>
        if ownerWrite mode && ownerExec mode then (none, fs.put k (Node.symlink oldname))
        else (some (Err.sys "symlink" newname Errno.EACCES), fs)
      | some _ => (some (Err.sys "symlink" newname Errno.ENOTDIR), fs)
      | none => (some (Err.sys "symlink" newname Errno.ENOENT), fs)

/-! ## World, calls, collaborators -/

/-- Calls made by the embedded functions, recorded when the callee is entered.  The deferred
`os.RemoveAll(downloadPath)` of `downloadAndMove` is recorded when it has run, with the error it
returned, which the source drops. -/
inductive Call
  | Get (url : String)
  | download (url : String)
  | extractZIP (targetDir : String)
  | extractTARGZ (targetDir : String)
  | GetWithSha256 (uri dir sha : String)
  | GetInsecure (uri dir : String)
  | extractArchive (filename dst : String)
  | downloadAndMove (version uri downloadPath installPath : String)
  | Install (plugin : String) (forceHEAD : Bool)
  | install (plugin version uri bin : String)
  | Remove (name : String)
  | createOrUpdateLink (binDir binary plugin : String)
  | removeLink (path : String)
  | findInstalledPluginVersion (installPath binPath name : String)
  | getDownloadTarget (plugin : String) (forceHEAD : Bool)
  | moveToInstallDir (downloadPath installPath version : String)
  | deferredRemoveAll (path : String) (err : Option Err)
  deriving DecidableEq, Repr

/-- The state the functions run in: the file system and the calls made so far, oldest first. -/
structure World where
  fs : FS
  calls : List Call
  deriving DecidableEq, Repr

/-- Record a call. -/
def World.log (w : World) (c : Call) : World := ⟨w.fs, w.calls ++ [c]⟩

/-- The same calls over another file system. -/
def World.withFS (w : World) (fs : FS) : World := ⟨fs, w.calls⟩

/-- An entry of `zip.Reader.File`: its name, `FileInfo().IsDir()`, `Mode()`, and what `Open()`
gives: an error, or the bytes the reader yields and the error that ends them, if any. -/
structure ZipFile where
  Name : String
  IsDir : Bool
  Mode : Nat
  Open : Except Err (Bytes × Option Err)

/-- The constant `tar.TypeReg`. -/
def TypeReg : Char := '0'

/-- The constant `tar.TypeDir`. -/
def TypeDir : Char := '5'

/-- A header returned by `tar.Reader.Next` with the bytes that reading the entry yields and the
error that ends them, if any. -/
structure TarEntry where
  Name : String
  Typeflag : Char
  Mode : Nat
  data : Bytes
  readErr : Option Err

/-- What a `tar.Reader` yields: entries in archive order, then `io.EOF` (`none`) or an error. -/
structure TarStream where
  entries : List TarEntry
  tail : Option Err

/-- The body returned by a fetcher: the bytes read and the error that ends them, if any. -/
structure Body where
  data : Bytes
  readErr : Option Err

/-- The interface `Fetcher`. -/
abbrev Fetcher := String → Except Err Body

/-- The interface `verifier`: the result of `Verify()` after the given bytes were written. -/
abbrev Verifier := Bytes → Option Err

/-- The type `index.FileOperation`. -/
structure FileOperation where
  From : String
  To : String
  deriving DecidableEq, Repr

/-- The type `index.Plugin`, as far as the embedded code reads it; `Spec` stands for the rest of
the manifest. -/
structure Plugin where
  Name : String
  Caveats : String
  Spec : List String
  deriving DecidableEq, Repr

/-- The results of `getDownloadTarget`. -/
structure Target where
  version : String
  uri : String
  fos : List FileOperation
  bin : String
  deriving DecidableEq, Repr

/-- Collaborators of the embedded code that lie outside it. -/
structure Env where
  /-- The call `zip.NewReader(read, size)`. -/
  zipNewReader : Bytes → Nat → Except Err (List ZipFile)
  /-- The call `gzip.NewReader` followed by `tar.NewReader`: the stream the loop reads. -/
  gzipTarReader : Bytes → Except Err TarStream
  /-- The fetcher `download.HTTPFetcher`. -/
  HTTPFetcher : Fetcher
  /-- The verifier `newSha256Verifier(sha)`. -/
  newSha256Verifier : String → Verifier
  /-- The function `findInstalledPluginVersion(installPath, binPath, name)`, which reads the file
  system. -/
  findInstalledPluginVersion : FS → String → String → String → String × Bool × Option Err
  /-- The function `getDownloadTarget(plugin, forceHEAD)`. -/
  getDownloadTarget : Plugin → Bool → Except Err Target
  /-- The function `moveToInstallDir(downloadPath, installPath, version, fos)`. -/
  moveToInstallDir : FS → String → String → String → List FileOperation → (String × Option Err) × FS
  /-- The function `pathutil.IsSubPath(basePath, subPath)`. -/
  IsSubPath : String → String → List String × Bool
  /-- The test `runtime.GOOS == "windows"`. -/
  isWindows : Bool
  /-- The call `os.Getwd()`. -/
  Getwd : Except Err String

/-- Modelled from the spec: `newTrueVerifier`, the pass-through verifier, which always succeeds. -/
def newTrueVerifier : Verifier := fun _ => none

/-- The function `filepath.Abs`. -/
def filepath.Abs (env : Env) (path : String) : Except Err String :=
  if filepath.IsAbs path then .ok (filepath.Clean path)
  else match env.Getwd with
    | .error e => .error e
    | .ok wd => .ok (filepath.Join [wd, path])

/-! ## `pkg/download/downloader.go` -/

/-- The function `download`: fetch, read everything through the verifier, verify.  Returns the
data (empty where the source returns a nil reader), its length and the error. -/
def download (url : String) (verifier : Verifier) (fetcher : Fetcher) (w : World) :
    (Bytes × Nat × Option Err) × World :=
  let w := (w.log (.download url)).log (.Get url)
  match fetcher url with
  | .error err => (([], 0, some (Err.wrapf "could not download %q, err %v: " [url] err)), w)
  | .ok body =>
    match body.readErr with
    | some err => (([], 0, some (Err.wrapf "could not read download content, err %v: " [] err)), w)
    | none => ((body.data, body.data.length, verifier body.data), w)

/-- One pass of the loop body of `extractZIP`, for the entry `f`: the error the function
returns there, or `none` when the loop goes on. -/
def extractZIPEntry (targetDir : String) (f : ZipFile) (w : World) : Option Err × World :=
  let path := filepath.Join [targetDir, filepath.FromSlash f.Name]
  if f.IsDir then
    (none, w.withFS (os.MkdirAll w.fs path f.Mode).2)
  else
    match f.Open with
    | .error err => (some (Err.wrapf "could not open inflating zip file, err: %v" [] err), w)
    | .ok (data, readErr) =>
      match os.OpenFile w.fs path true f.Mode with
      | .error err =>
        (some (Err.wrapf "can't create file in zip destination dir, err: %v" [] err), w)
      | .ok (fs1, dst) =>
        let w1 := w.withFS (writeFile fs1 dst data)
        match readErr with
        | some err =>
          (some (Err.wrapf "can't copy content to zip destination file, err: %v" [] err), w1)
        | none => (none, w1)

/-- The loop of `extractZIP` over `zipReader.File`. -/
def extractZIPLoop (targetDir : String) : List ZipFile → World → Option Err × World
  | [], w => (none, w)
  | f :: rest, w =>
    match extractZIPEntry targetDir f w with
    | (some err, w1) => (some err, w1)
    | (none, w1) => extractZIPLoop targetDir rest w1

/-- The function `extractZIP`. -/
def extractZIP (env : Env) (targetDir : String) (read : Bytes) (size : Nat) (w : World) :
    Option Err × World :=
  let w := w.log (.extractZIP targetDir)
  match env.zipNewReader read size with
  | .error err => (some err, w)
  | .ok files => extractZIPLoop targetDir files w

/-- One pass of the loop body of `extractTARGZ`, for the header `hdr`: the error the function
returns there, or `none` when the loop goes on. -/
def extractTARGZEntry (targetDir : String) (hdr : TarEntry) (w : World) : Option Err × World :=
  if hdr.Name = "pax_global_header" then (none, w)
  else
    let path := filepath.Join [targetDir, filepath.FromSlash hdr.Name]
    if hdr.Typeflag = TypeDir then
      match os.MkdirAll w.fs path hdr.Mode with
      | (some err, fs1) =>
        (some (Err.wrapf "failed to create directory from tar: %+v" [] err), w.withFS fs1)
      | (none, fs1) => (none, w.withFS fs1)
    else if hdr.Typeflag = TypeReg then
      match os.OpenFile w.fs path false hdr.Mode with
      | .error err => (some (Err.wrapf "failed to create file %q: %+v" [path] err), w)
      | .ok (fs1, f) =>
        let w1 := w.withFS (writeFile fs1 f hdr.data)
        match hdr.readErr with
        | some err =>
          (some (Err.wrapf "failed to copy %q from tar into file: %+v" [hdr.Name] err), w1)
        | none => (none, w1)
    else
      (some (Err.errorf "unable to handle file type %d for %q in tar"
        [String.singleton hdr.Typeflag, hdr.Name]), w)

/-- The loop of `extractTARGZ` over the entries `tr.Next()` returns, ended by `tail`. -/
def extractTARGZLoop (targetDir : String) (tail : Option Err) :
    List TarEntry → World → Option Err × World
  | [], w =>
    match tail with
    | none => (none, w)
    | some err => (some (Err.wrapf "tar extraction error: %+v" [] err), w)
  | hdr :: rest, w =>
    match extractTARGZEntry targetDir hdr w with
    | (some err, w1) => (some err, w1)
    | (none, w1) => extractTARGZLoop targetDir tail rest w1

/-- The function `extractTARGZ`. -/
def extractTARGZ (env : Env) (targetDir : String) (input : Bytes) (w : World) :
    Option Err × World :=
  let w := w.log (.extractTARGZ targetDir)
  match env.gzipTarReader input with
  | .error err => (some (Err.wrapf "failed to create gzip reader: %+v" [] err), w)
  | .ok stream => extractTARGZLoop targetDir stream.tail stream.entries w

/-- The function `extractArchive`. -/
def extractArchive (env : Env) (filename dst : String) (r : Bytes) (size : Nat) (w : World) :
    Option Err × World :=
  let w := w.log (.extractArchive filename dst)
  if strings.HasSuffix filename ".zip" then extractZIP env dst r size w
  else if strings.HasSuffix filename ".tar.gz" then extractTARGZ env dst (r.take size) w
  else
    (some (Err.errorf
      "cannot infer a supported archive type from filename in the url (%q)" [filename]), w)

/-- The function `GetWithSha256`. -/
def GetWithSha256 (env : Env) (uri dir sha : String) (fetcher : Fetcher) (w : World) :
    Option Err × World :=
  let w := w.log (.GetWithSha256 uri dir sha)
  let name := path.Base uri
  match download uri (env.newSha256Verifier sha) fetcher w with
  | ((_, _, some err), w1) => (some err, w1)
  | ((body, size, none), w1) => extractArchive env name dir body size w1

/-- The function `GetInsecure`. -/
def GetInsecure (env : Env) (uri dir : String) (fetcher : Fetcher) (w : World) :
    Option Err × World :=
  let w := w.log (.GetInsecure uri dir)
  let name := path.Base uri
  match download uri newTrueVerifier fetcher w with
  | ((_, _, some err), w1) => (some err, w1)
  | ((body, size, none), w1) => extractArchive env name dir body size w1

/-! ## `pkg/environment/environment.go` -/

/-- The type `environment.Paths`. -/
structure Paths where
  base : String
  tmp : String
  deriving DecidableEq, Repr

/-- The method `BasePath`. -/
def Paths.BasePath (p : Paths) : String := p.base

/-- The method `IndexPath`. -/
def Paths.IndexPath (p : Paths) : String := filepath.Join [p.base, "index"]

/-- The method `BinPath`. -/
def Paths.BinPath (p : Paths) : String := filepath.Join [p.base, "bin"]

/-- The method `DownloadPath`. -/
def Paths.DownloadPath (p : Paths) : String := filepath.Join [p.tmp, "krew-downloads"]

/-- The method `InstallPath`. -/
def Paths.InstallPath (p : Paths) : String := filepath.Join [p.base, "store"]

/-- The method `PluginInstallPath`. -/
def Paths.PluginInstallPath (p : Paths) (plugin : String) : String :=
  filepath.Join [p.InstallPath, plugin]

/-- The method `PluginVersionInstallPath`. -/
def Paths.PluginVersionInstallPath (p : Paths) (plugin version : String) : String :=
  filepath.Join [p.InstallPath, plugin, version]

/-! ## `pkg/installation/install.go` -/

/-- The constant `headVersion`. -/
def headVersion : String := "HEAD"

/-- The constant `headOldVersion`. -/
def headOldVersion : String := "HEAD-OLD"

/-- The constant `krewPluginName`. -/
def krewPluginName : String := "krew"

/-- The function `pluginNameToBin`. -/
def pluginNameToBin (name : String) (isWindows : Bool) : String :=
  let name := strings.Replace name "-" "_"
  let name := "kubectl-" ++ name
  if isWindows then name ++ ".exe" else name

/-- The test `fi.Mode()&os.ModeSymlink == 0`. -/
def Node.notSymlink : Node → Bool
  | Node.symlink _ => false
  | _ => true

/-- The function `removeLink`. -/
def removeLink (path : String) (w : World) : Option Err × World :=
  let w := w.log (.removeLink path)
  match os.Lstat w.fs path with
  | .error err =>
    if os.IsNotExist (some err) then (none, w)
    else (some (Err.wrapf "failed to read the symlink in %q, err: %v" [path] err), w)
  | .ok fi =>
    if fi.notSymlink then
      (some (Err.errorf "file %q is not a symlink (mode=%s)" [path]), w)
    else
      match os.Remove w.fs path with
      | (some err, fs1) =>
        (some (Err.wrapf "failed to remove the symlink in %q, err: %v" [path] err), w.withFS fs1)
      | (none, fs1) => (none, w.withFS fs1)

/-- The function `createOrUpdateLink`. -/
def createOrUpdateLink (env : Env) (binDir binary plugin : String) (w : World) :
    Option Err × World :=
  let w := w.log (.createOrUpdateLink binDir binary plugin)
  let dst := filepath.Join [binDir, pluginNameToBin plugin env.isWindows]
  match removeLink dst w with
  | (some err, w1) => (some (Err.wrapf "failed to remove old symlink, err: %v" [] err), w1)
  | (none, w1) =>
    let statErr : Option Err :=
      match os.Stat w1.fs binary with
      | .error err => some err
      | .ok _ => none
    if os.IsNotExist statErr then
      (some (Err.errorf
        "can't create symbolic link, source binary (%q) cannot be found in extracted archive"
        [binary]), w1)
    else
      match os.Symlink w1.fs binary dst with
      | (some err, fs2) =>
        (some (Err.wrapf "failed to create a symlink form %q to %q, err: %v" [binDir, dst] err),
          w1.withFS fs2)
      | (none, fs2) => (none, w1.withFS fs2)

/-- The function `downloadAndMove`; the deferred `os.RemoveAll(downloadPath)` runs on every
return after the directory was made, and its result is dropped. -/
def downloadAndMove (env : Env) (version uri : String) (fos : List FileOperation)
    (downloadPath installPath : String) (w : World) : (String × Option Err) × World :=
  let w := w.log (.downloadAndMove version uri downloadPath installPath)
  match os.MkdirAll w.fs downloadPath 0o755 with
  | (some err, fs1) =>
    (("", some (Err.wrapf "could not create download path %q, err: %v" [downloadPath] err)),
      w.withFS fs1)
  | (none, fs1) =>
    let got :=
      if version = headVersion then
        GetInsecure env uri downloadPath env.HTTPFetcher (w.withFS fs1)
      else
        GetWithSha256 env uri downloadPath version env.HTTPFetcher (w.withFS fs1)
    let ret : (String × Option Err) × World :=
      match got with
      | (some err, w2) => (("", some err), w2)
      | (none, w2) =>
        let w3 := w2.log (.moveToInstallDir downloadPath installPath version)
        let moved := env.moveToInstallDir w3.fs downloadPath installPath version fos
        (moved.1, w3.withFS moved.2)
    let cleaned := os.RemoveAll ret.2.fs downloadPath
    (ret.1, (ret.2.withFS cleaned.2).log (.deferredRemoveAll downloadPath cleaned.1))

/-- The function `install`. -/
def install (env : Env) (plugin version uri bin : String) (p : Paths)
    (fos : List FileOperation) (w : World) : Option Err × World :=
  let w := w.log (.install plugin version uri bin)
  match downloadAndMove env version uri fos (filepath.Join [p.DownloadPath, plugin])
      (p.PluginInstallPath plugin) w with
  | ((_, some err), w1) =>
    (some (Err.wrapf "failed to dowload and move during installation, err: %v" [] err), w1)
  | ((dst, none), w1) =>
    match filepath.Abs env dst with
    | .error err =>
      (some (Err.wrapf "failed to get the absolute fullPath of %q, err: %v" [dst] err), w1)
    | .ok subPathAbs =>
      let fullPath := filepath.Join [dst, filepath.FromSlash bin]
      match filepath.Abs env fullPath with
      | .error err =>
        (some (Err.wrapf "failed to get the absolute fullPath of %q, err: %v" [fullPath] err),
          w1)
      | .ok pathAbs =>
        if ¬ (env.IsSubPath subPathAbs pathAbs).2 then
          (some (Err.errorf "the fullPath %q does not extend the sub-fullPath %q"
            [fullPath, dst]), w1)
        else
          createOrUpdateLink env p.BinPath (filepath.Join [dst, filepath.FromSlash bin]) plugin
            w1

/-- The function `Install`. -/
def Install (env : Env) (p : Paths) (plugin : Plugin) (forceHEAD : Bool) (w : World) :
    Option Err × World :=
  let w := w.log (.Install plugin.Name forceHEAD)
  let w := w.log (.findInstalledPluginVersion p.InstallPath p.BinPath plugin.Name)
  match env.findInstalledPluginVersion w.fs p.InstallPath p.BinPath plugin.Name with
  | (_, _, some err) => (some err, w)
  | (_, true, none) => (some Err.ErrIsAlreadyInstalled, w)
  | (_, false, none) =>
    let w := w.log (.getDownloadTarget plugin.Name forceHEAD)
    match env.getDownloadTarget plugin forceHEAD with
    | .error err => (some err, w)
    | .ok t => install env plugin.Name t.version t.uri t.bin p t.fos w

/-- The function `Remove`. -/
def Remove (env : Env) (p : Paths) (name : String) (w : World) : Option Err × World :=
  let w := w.log (.Remove name)
  if name = krewPluginName then
    (some (Err.errorf "removing krew is not allowed through krew, see docs for help" []), w)
  else
    let w := w.log (.findInstalledPluginVersion p.InstallPath p.BinPath name)
    match env.findInstalledPluginVersion w.fs p.InstallPath p.BinPath name with
    | (_, _, some err) => (some (Err.wrapf "can't remove plugin, err: %v" [] err), w)
    | (_, false, none) => (some Err.ErrIsNotInstalled, w)
    | (_, true, none) =>
      let symlinkPath := filepath.Join [p.BinPath, pluginNameToBin name env.isWindows]
      match removeLink symlinkPath w with
      | (some err, w1) =>
        (some (Err.wrapf "could not uninstall symlink of plugin: %+v" [] err), w1)
      | (none, w1) =>
        let r := os.RemoveAll w1.fs (p.PluginInstallPath name)
        (r.1, w1.withFS r.2)

/-! ## `cmd/krew/cmd/install.go`: the install loop of `RunE` -/

/-- The loop `for _, plugin := range install` over the plugins still to install, with the
`failed` names collected so far; `Install` is the function called for each plugin. -/
def installLoop {σ : Type} (Install : Plugin → σ → Option Err × σ) :
    List Plugin → List String → σ → List String × σ
  | [], failed, s => (failed, s)
  | plugin :: rest, failed, s =>
    match Install plugin s with
    | (some err, s1) =>
      if err = Err.ErrIsAlreadyInstalled then installLoop Install rest failed s1
      else installLoop Install rest (failed ++ [plugin.Name]) s1
    | (none, s1) => installLoop Install rest failed s1

/-- The end of `RunE`, from `var failed []string` on: install each plugin, then report. -/
def installCmdRun {σ : Type} (Install : Plugin → σ → Option Err × σ) (plugins : List Plugin)
    (s : σ) : Option Err × σ :=
  let r := installLoop Install plugins [] s
  if r.1.length > 0 then (some (Err.errorf "failed to install some plugins: %+v" r.1), r.2)
  else (none, r.2)

/-- The part of `RunE` from the check of the HEAD option on, for the list `install` of plugins
to install: HEAD with more than one plugin is refused, an empty list shows the help (`Help`
stands for `cmd.Help()`), otherwise each plugin is installed with `Install` and the failures are
reported. -/
def installCmdFrom {σ : Type} (Install : Plugin → Bool → σ → Option Err × σ)
    (Help : σ → Option Err × σ) (forceHEAD : Bool) (plugins : List Plugin) (s : σ) :
    Option Err × σ :=
  if plugins.length > 1 ∧ forceHEAD then
    (some (Err.errorf "can't use HEAD option with multiple plugins" []), s)
  else if plugins.length = 0 then Help s
  else installCmdRun (fun plugin => Install plugin forceHEAD) plugins s

/-- The install command from the check of the HEAD option on, calling
`installation.Install(paths, plugin, *forceHEAD)`. -/
def installCmd (env : Env) (paths : Paths) (Help : World → Option Err × World)
    (forceHEAD : Bool) (plugins : List Plugin) (w : World) : Option Err × World :=
  installCmdFrom (fun plugin force => Install env paths plugin force) Help forceHEAD plugins w

/-! ## A concrete setting for evaluating the definitions -/

/-- An example of `pathutil.IsSubPath`: the elements of `subPath` after `basePath`, and whether
`subPath` is `basePath` or lies below it. -/
def exIsSubPath (basePath subPath : String) : List String × Bool :=
  ((keyOf subPath).elems.drop (keyOf basePath).elems.length,
    (keyOf basePath).within (keyOf subPath))

/-- An example of `findInstalledPluginVersion`: a plugin is installed when its link in the bin
directory is a symbolic link; the version is the element of the link target after the plugin's
directory in the store. -/
def exFindInstalled (fs : FS) (installPath binPath name : String) : String × Bool × Option Err :=
  match os.Lstat fs (filepath.Join [binPath, pluginNameToBin name false]) with
  | .ok (Node.symlink target) =>
    (((exIsSubPath (filepath.Join [installPath, name]) target).1.headD ""), true, none)
  | _ => ("", false, none)

/-- An example of `moveToInstallDir`: everything below the download directory is moved below
`installPath/version`, which is made first. -/
def exMoveToInstallDir (fs : FS) (downloadPath installPath version : String)
    (_ : List FileOperation) : (String × Option Err) × FS :=
  let dst := filepath.Join [installPath, version]
  match os.MkdirAll fs dst 0o755 with
  | (some err, fs1) => (("", some err), fs1)
  | (none, fs1) =>
    let d := keyOf downloadPath
    ((dst, none), fs1.map (fun e =>
      if d.within e.1 ∧ e.1 ≠ d then
        (⟨(keyOf dst).rooted, (keyOf dst).elems ++ e.1.elems.drop d.elems.length⟩, e.2)
      else e))

/-- Example archives: `[80, 75, 1]` is a ZIP with a directory and a file in it, `[80, 75, 2]` a
ZIP whose single entry climbs out with `..`. -/
def exZipNewReader (r : Bytes) (_ : Nat) : Except Err (List ZipFile) :=
  if r = [80, 75, 1] then
    .ok [⟨"demo/", true, 0o755, .ok ([], none)⟩, ⟨"demo/run", false, 0o755, .ok ([35, 33], none)⟩]
  else if r = [80, 75, 2] then
    .ok [⟨"../evil", false, 0o644, .ok ([66], none)⟩]
  else .error (Err.ext "zip: not a valid zip file")

/-- Example archives: `[31, 139, 1]` holds a directory and a file, `[31, 139, 2]` a file and
then a symbolic link, `[31, 139, 3]` a file whose name climbs out with `..`, `[31, 139, 4]` a
directory its owner may not read, a file in it, and then a symbolic link. -/
def exGzipTarReader (r : Bytes) : Except Err TarStream :=
  if r = [31, 139, 1] then
    .ok ⟨[⟨"pax_global_header", 'g', 0o644, [], none⟩, ⟨"demo", TypeDir, 0o755, [], none⟩,
      ⟨"demo/run", TypeReg, 0o755, [35, 33], none⟩], none⟩
  else if r = [31, 139, 2] then
    .ok ⟨[⟨"a", TypeReg, 0o644, [65], none⟩, ⟨"b", '2', 0o777, [], none⟩,
      ⟨"c", TypeReg, 0o644, [67], none⟩], none⟩
  else if r = [31, 139, 3] then
    .ok ⟨[⟨"../evil", TypeReg, 0o644, [66], none⟩], none⟩
  else if r = [31, 139, 4] then
    .ok ⟨[⟨"d", TypeDir, 0o300, [], none⟩, ⟨"d/f", TypeReg, 0o644, [70], none⟩,
      ⟨"s", '2', 0o777, [], none⟩], none⟩
  else .error (Err.ext "gzip: invalid header")

/-- An example fetcher serving the example archives. -/
def exFetcher : Fetcher := fun url =>
  if url = "https://example.com/demo.zip" then .ok ⟨[80, 75, 1], none⟩
  else if url = "https://example.com/demo.tar.gz" then .ok ⟨[31, 139, 1], none⟩
  else if url = "https://example.com/slip.zip" then .ok ⟨[80, 75, 2], none⟩
  else if url = "https://example.com/cut.zip" then .ok ⟨[80, 75], some (Err.ext "unexpected EOF")⟩
  else if url = "https://example.com/locked.tar.gz" then .ok ⟨[31, 139, 4], none⟩
  else .error (Err.ext "404 Not Found")

/-- An example verifier: the expected digest is the decimal-free tally `"s" ++ "x"^(sum mod 7)`
of the bytes. -/
def exVerifier (sha : String) : Verifier := fun data =>
  if sha = String.mk ('s' :: List.replicate (data.sum % 7) 'x') then none
  else some (Err.ext "checksum does not match")

/-- An example of `getDownloadTarget`: the manifest lists version, uri and binary path. -/
def exGetDownloadTarget (plugin : Plugin) (forceHEAD : Bool) : Except Err Target :=
  match plugin.Spec with
  | [version, uri, bin] => .ok ⟨if forceHEAD then headVersion else version, uri, [], bin⟩
  | _ => .error (Err.ext "plugin has no matching platform")

/-- The example collaborators together. -/
def exEnv : Env where
  zipNewReader := exZipNewReader
  gzipTarReader := exGzipTarReader
  HTTPFetcher := exFetcher
  newSha256Verifier := exVerifier
  findInstalledPluginVersion := exFindInstalled
  getDownloadTarget := exGetDownloadTarget
  moveToInstallDir := exMoveToInstallDir
  IsSubPath := exIsSubPath
  isWindows := false
  Getwd := .ok "/home/u"

/-- Example paths. -/
def exPaths : Paths := ⟨"/home/u/.krew", "/tmp"⟩

/-- A file system with the krew directories and the temporary directory. -/
def exFS : FS :=
  [(⟨true, ["home"]⟩, Node.dir 0o755), (⟨true, ["home", "u"]⟩, Node.dir 0o755),
   (⟨true, ["home", "u", ".krew"]⟩, Node.dir 0o755),
   (⟨true, ["home", "u", ".krew", "bin"]⟩, Node.dir 0o755),
   (⟨true, ["home", "u", ".krew", "store"]⟩, Node.dir 0o755),
   (⟨true, ["tmp"]⟩, Node.dir 0o777)]

/-- An example plugin, fetched as a ZIP. -/
def exPlugin : Plugin := ⟨"demo", "", ["sxx", "https://example.com/demo.zip", "demo/run"]⟩

/-- The example file system with an empty target directory "/tmp/x". -/
def exTargetFS : FS := (⟨true, ["tmp", "x"]⟩, Node.dir 0o755) :: exFS

/-- A file system in which the example plugin is installed (its link is in the bin directory)
and a download directory for it is present, left by an earlier run. -/
def exLeftoverFS : FS :=
  (⟨true, ["tmp", "krew-downloads", "demo"]⟩, Node.dir 0o755) ::
  (⟨true, ["tmp", "krew-downloads"]⟩, Node.dir 0o755) ::
  (⟨true, ["home", "u", ".krew", "bin", "kubectl-demo"]⟩,
    Node.symlink "/home/u/.krew/store/demo/sxx/demo/run") :: exFS

/-- An example plugin fetched as a tar.gz whose extraction stops at a symbolic link, after a
directory its owner may not read and a file in it were written. -/
def exLockedPlugin : Plugin := ⟨"locked", "", ["", "https://example.com/locked.tar.gz", "d/f"]⟩

/-- The example file system with a regular file "note" in the bin directory. -/
def exNoteFS : FS :=
  (⟨true, ["home", "u", ".krew", "bin", "note"]⟩, Node.file 0o644 [110]) :: exFS

/-! ## Notions used in the statements -/

/-- The calls that touch a link in the bin directory. -/
def Call.linkStep : Call → Bool
  | Call.createOrUpdateLink _ _ _ => true
  | Call.removeLink _ => true
  | _ => false

/-- The records of the deferred removal of a download directory. -/
def Call.isCleanup : Call → Bool
  | Call.deferredRemoveAll _ _ => true
  | _ => false

/-- Whether something exists at the path `path`: whether `os.Lstat` finds an entry there. -/
def pathExists (fs : FS) (path : String) : Bool :=
  match os.Lstat fs path with
  | .ok _ => true
  | .error _ => false

/-- Modelled from the spec: what `findInstalledPluginVersion`, whose code is not among the
embedded files, reports about a plugin whose link is in place.  The spec: "Installed state: not
stored separately - determined by filesystem inspection (presence of a symlink in the bin
directory and the version segment of its resolved target)", and "Linked/live version: the
currently active installed version of a plugin, indicated by a symlink in the shared bin
directory".  So on every file system in which the link of the plugin `name` in the bin directory
is a symbolic link, the lookup for `name` reports the plugin installed, with some version and
without an error. -/
def LookupFollowsLink (env : Env) (installPath binPath name : String) : Prop :=
  ∀ (fs : FS) (target : String),
    os.Lstat fs (filepath.Join [binPath, pluginNameToBin name env.isWindows])
        = .ok (Node.symlink target) →
      ∃ version, env.findInstalledPluginVersion fs installPath binPath name = (version, true, none)

/-- The names and results of calling `Install` once for each plugin, in list order, each call
running in the state the one before left, whatever the results. -/
def installOutcomes {σ : Type} (Install : Plugin → σ → Option Err × σ) :
    List Plugin → σ → List (String × Option Err)
  | [], _ => []
  | plugin :: rest, s =>
    (plugin.Name, (Install plugin s).1) :: installOutcomes Install rest (Install plugin s).2

/-- The state after calling `Install` once for each plugin, in list order. -/
def installFinal {σ : Type} (Install : Plugin → σ → Option Err × σ) : List Plugin → σ → σ
  | [], s => s
  | plugin :: rest, s => installFinal Install rest (Install plugin s).2

/-- A result that is an error other than `ErrIsAlreadyInstalled`. -/
def isFailure (r : Option Err) : Bool :=
  r ≠ none ∧ r ≠ some Err.ErrIsAlreadyInstalled

/-! ## Calls recorded by the extractors -/

@[simp]
theorem log_fs (w : World) (c : Call) : (w.log c).fs = w.fs := rfl

@[simp]
theorem log_calls (w : World) (c : Call) : (w.log c).calls = w.calls ++ [c] := rfl

@[simp]
theorem withFS_fs (w : World) (fs : FS) : (w.withFS fs).fs = fs := rfl

@[simp]
theorem withFS_calls (w : World) (fs : FS) : (w.withFS fs).calls = w.calls := rfl

theorem extractZIPEntry_calls (targetDir : String) (f : ZipFile) (w : World) :
    (extractZIPEntry targetDir f w).2.calls = w.calls := by
  unfold extractZIPEntry
  dsimp only
  split
  · rfl
  · split
    · rfl
    · split
      · rfl
      · split <;> rfl

theorem extractZIPLoop_calls (targetDir : String) (files : List ZipFile) (w : World) :
    (extractZIPLoop targetDir files w).2.calls = w.calls := by
  induction files generalizing w with
  | nil => rfl
  | cons f rest ih =>
    have h := extractZIPEntry_calls targetDir f w
    unfold extractZIPLoop
    split
    · rename_i err w1 heq
      rw [heq] at h
      exact h
    · rename_i w1 heq
      rw [heq] at h
      rw [ih]
      exact h

theorem extractTARGZEntry_calls (targetDir : String) (hdr : TarEntry) (w : World) :
    (extractTARGZEntry targetDir hdr w).2.calls = w.calls := by
  unfold extractTARGZEntry
  dsimp only
  split
  · rfl
  · split
    · split <;> rfl
    · split
      · split
        · rfl
        · split <;> rfl
      · rfl

theorem extractTARGZLoop_calls (targetDir : String) (tail : Option Err) (entries : List TarEntry)
    (w : World) : (extractTARGZLoop targetDir tail entries w).2.calls = w.calls := by
  induction entries generalizing w with
  | nil => unfold extractTARGZLoop; split <;> rfl
  | cons hdr rest ih =>
    have h := extractTARGZEntry_calls targetDir hdr w
    unfold extractTARGZLoop
    split
    · rename_i err w1 heq
      rw [heq] at h
      exact h
    · rename_i w1 heq
      rw [heq] at h
      rw [ih]
      exact h

theorem extractZIP_calls (env : Env) (targetDir : String) (read : Bytes) (size : Nat) (w : World) :
    (extractZIP env targetDir read size w).2.calls = w.calls ++ [Call.extractZIP targetDir] := by
  unfold extractZIP
  dsimp only
  split
  · rfl
  · rw [extractZIPLoop_calls]; rfl

theorem extractTARGZ_calls (env : Env) (targetDir : String) (input : Bytes) (w : World) :
    (extractTARGZ env targetDir input w).2.calls = w.calls ++ [Call.extractTARGZ targetDir] := by
  unfold extractTARGZ
  dsimp only
  split
  · rfl
  · rw [extractTARGZLoop_calls]; rfl

theorem extractArchive_calls_zip (env : Env) (filename dst : String) (r : Bytes) (size : Nat)
    (w : World) (h : strings.HasSuffix filename ".zip" = true) :
    (extractArchive env filename dst r size w).2.calls =
      w.calls ++ [Call.extractArchive filename dst, Call.extractZIP dst] := by
  unfold extractArchive
  simp [h, extractZIP_calls]

theorem extractArchive_calls_targz (env : Env) (filename dst : String) (r : Bytes) (size : Nat)
    (w : World) (h : strings.HasSuffix filename ".zip" = false)
    (h2 : strings.HasSuffix filename ".tar.gz" = true) :
    (extractArchive env filename dst r size w).2.calls =
      w.calls ++ [Call.extractArchive filename dst, Call.extractTARGZ dst] := by
  unfold extractArchive
  simp [h, h2, extractTARGZ_calls]

theorem extractArchive_calls_other (env : Env) (filename dst : String) (r : Bytes) (size : Nat)
    (w : World) (h : strings.HasSuffix filename ".zip" = false)
    (h2 : strings.HasSuffix filename ".tar.gz" = false) :
    extractArchive env filename dst r size w =
      (some (Err.errorf "cannot infer a supported archive type from filename in the url (%q)"
        [filename]), w.log (Call.extractArchive filename dst)) := by
  unfold extractArchive
  simp [h, h2]

theorem extractArchive_calls_mem (env : Env) (filename dst : String) (r : Bytes) (size : Nat)
    (w : World) :
    Call.extractArchive filename dst ∈ (extractArchive env filename dst r size w).2.calls := by
  cases h : strings.HasSuffix filename ".zip"
  · cases h2 : strings.HasSuffix filename ".tar.gz"
    · rw [extractArchive_calls_other env filename dst r size w h h2]; simp
    · rw [extractArchive_calls_targz env filename dst r size w h h2]; simp
  · rw [extractArchive_calls_zip env filename dst r size w h]; simp

/-! ## File system lemmas -/

theorem find_filter (q : PathKey → Bool) (fs : FS) (k : PathKey) :
    FS.find (fs.filter (fun e => q e.1)) k = if q k then FS.find fs k else none := by
  induction fs with
  | nil => simp [FS.find]
  | cons e rest ih =>
    obtain ⟨k1, n⟩ := e
    by_cases hq : q k1 = true
    · rw [List.filter_cons_of_pos (by simpa using hq)]
      by_cases hk : k1 = k
      · subst hk
        simp [FS.find, hq]
      · simp [FS.find, hk, ih]
    · rw [List.filter_cons_of_neg (by simpa using hq)]
      by_cases hk : k1 = k
      · subst hk
        simpa [FS.find, hq] using ih
      · simp [FS.find, hk, ih]

theorem find_del (fs : FS) (k k1 : PathKey) :
    FS.find (fs.del k) k1 = if k1 = k then none else FS.find fs k1 := by
  have h := find_filter (fun x => decide (x ≠ k)) fs k1
  unfold FS.del
  rw [h]
  by_cases hk : k1 = k <;> simp [hk]

theorem get_put_self (fs : FS) (k : PathKey) (n : Node) (hk : k.elems ≠ []) :
    (fs.put k n).get k = some n := by
  simp [FS.get, FS.put, FS.find, hk]

theorem get_put_ne (fs : FS) (k k1 : PathKey) (n : Node) (hk : k1 ≠ k) :
    (fs.put k n).get k1 = fs.get k1 := by
  have hk2 : ¬ k = k1 := fun e => hk e.symm
  simp [FS.get, FS.put, FS.find, hk2, find_del, hk]

theorem get_none_elems (fs : FS) (k : PathKey) (h : fs.get k = none) : k.elems ≠ [] := by
  intro he
  simp [FS.get, he] at h

/-! ## Path resolution -/

theorem cleanElems_step (rooted : Bool) (e : String) (es acc : List String) :
    cleanElems rooted (e :: es) acc = cleanElems rooted es (stepInto rooted e acc) := by
  conv => lhs; unfold cleanElems
  unfold stepInto
  split
  · rfl
  · split
    · split
      · split <;> rfl
      · split <;> rfl
    · rfl

theorem walk_key (fs : FS) (op path : String) (rooted : Bool) (es acc : List String)
    (k : PathKey) (h : fs.walk op path rooted es acc = .ok k) :
    k = ⟨rooted, cleanElems rooted es acc⟩ := by
  induction es generalizing acc with
  | nil =>
    unfold FS.walk at h
    unfold cleanElems
    simp only [Except.ok.injEq] at h
    exact h.symm
  | cons e es ih =>
    unfold FS.walk at h
    rw [cleanElems_step]
    split at h
    · simp at h
    · exact ih _ h

theorem locate_key (fs : FS) (op path : String) (k : PathKey)
    (h : fs.locate op path = .ok k) : k = keyOf path := by
  unfold FS.locate at h
  split at h
  · simp at h
  · exact walk_key _ _ _ _ _ _ _ h

theorem enter_congr (fs1 fs2 : FS) (op1 path1 op2 path2 : String) (c : PathKey)
    (hdir : ∀ c m, fs1.get c = some (Node.dir m) → fs2.get c = some (Node.dir m))
    (h : fs1.enter op1 path1 c = none) : fs2.enter op2 path2 c = none := by
  unfold FS.enter at h ⊢
  split at h
  · rename_i mode hget
    rw [hdir c mode hget]
    split at h
    · rename_i hx
      simp [hx]
    · simp at h
  · simp at h
  · simp at h

theorem walk_congr (fs1 fs2 : FS) (op1 path1 op2 path2 : String) (rooted : Bool)
    (es acc : List String) (k : PathKey)
    (hdir : ∀ c m, fs1.get c = some (Node.dir m) → fs2.get c = some (Node.dir m))
    (h : fs1.walk op1 path1 rooted es acc = .ok k) :
    fs2.walk op2 path2 rooted es acc = .ok k := by
  induction es generalizing acc with
  | nil =>
    unfold FS.walk at h ⊢
    exact h
  | cons e es ih =>
    unfold FS.walk at h ⊢
    split at h
    · simp at h
    · rename_i henter
      rw [enter_congr fs1 fs2 op1 path1 op2 path2 _ hdir henter]
      exact ih _ h

theorem locate_congr (fs1 fs2 : FS) (op1 op2 path : String) (k : PathKey)
    (hdir : ∀ c m, fs1.get c = some (Node.dir m) → fs2.get c = some (Node.dir m))
    (h : fs1.locate op1 path = .ok k) : fs2.locate op2 path = .ok k := by
  unfold FS.locate at h ⊢
  split
  · rename_i hp
    rw [if_pos hp] at h
    simp at h
  · rename_i hp
    rw [if_neg hp] at h
    exact walk_congr fs1 fs2 _ _ _ _ _ _ _ _ hdir h

/-! ## Calls recorded by the other functions -/

theorem download_world (url : String) (verifier : Verifier) (fetcher : Fetcher) (w : World) :
    (download url verifier fetcher w).2 = ⟨w.fs, w.calls ++ [Call.download url, Call.Get url]⟩ := by
  unfold download
  dsimp only
  split
  · simp [World.log]
  · split <;> simp [World.log]

theorem removeLink_calls (path : String) (w : World) :
    (removeLink path w).2.calls = w.calls ++ [Call.removeLink path] := by
  unfold removeLink
  dsimp only
  split
  · split <;> rfl
  · split
    · rfl
    · split <;> rfl

theorem createOrUpdateLink_calls (env : Env) (binDir binary plugin : String) (w : World) :
    (createOrUpdateLink env binDir binary plugin w).2.calls =
      w.calls ++ [Call.createOrUpdateLink binDir binary plugin,
        Call.removeLink (filepath.Join [binDir, pluginNameToBin plugin env.isWindows])] := by
  have h := removeLink_calls (filepath.Join [binDir, pluginNameToBin plugin env.isWindows])
    (w.log (Call.createOrUpdateLink binDir binary plugin))
  unfold createOrUpdateLink
  dsimp only
  split
  · rename_i err w1 heq
    rw [heq] at h
    simpa using h
  · rename_i w1 heq
    rw [heq] at h
    split
    · simpa using h
    · split <;> simpa using h

theorem extractArchive_linkSteps (env : Env) (filename dst : String) (r : Bytes) (size : Nat)
    (w : World) :
    (extractArchive env filename dst r size w).2.calls.filter Call.linkStep =
      w.calls.filter Call.linkStep := by
  cases h : strings.HasSuffix filename ".zip"
  · cases h2 : strings.HasSuffix filename ".tar.gz"
    · rw [extractArchive_calls_other env filename dst r size w h h2]
      simp [World.log, List.filter_append, Call.linkStep]
    · rw [extractArchive_calls_targz env filename dst r size w h h2]
      simp [List.filter_append, List.filter_cons, Call.linkStep]
  · rw [extractArchive_calls_zip env filename dst r size w h]
    simp [List.filter_append, List.filter_cons, Call.linkStep]

theorem GetWithSha256_linkSteps (env : Env) (uri dir sha : String) (fetcher : Fetcher)
    (w : World) :
    (GetWithSha256 env uri dir sha fetcher w).2.calls.filter Call.linkStep =
      w.calls.filter Call.linkStep := by
  have hd := download_world uri (env.newSha256Verifier sha) fetcher
    (w.log (Call.GetWithSha256 uri dir sha))
  unfold GetWithSha256
  dsimp only
  split
  · rename_i a b err w1 heq
    rw [heq] at hd
    simp only at hd
    rw [hd]
    simp [World.log, List.filter_append, List.filter_cons, Call.linkStep]
  · rename_i body size w1 heq
    rw [heq] at hd
    simp only at hd
    rw [extractArchive_linkSteps, hd]
    simp [World.log, List.filter_append, List.filter_cons, Call.linkStep]

theorem GetInsecure_linkSteps (env : Env) (uri dir : String) (fetcher : Fetcher) (w : World) :
    (GetInsecure env uri dir fetcher w).2.calls.filter Call.linkStep =
      w.calls.filter Call.linkStep := by
  have hd := download_world uri newTrueVerifier fetcher (w.log (Call.GetInsecure uri dir))
  unfold GetInsecure
  dsimp only
  split
  · rename_i a b err w1 heq
    rw [heq] at hd
    simp only at hd
    rw [hd]
    simp [World.log, List.filter_append, List.filter_cons, Call.linkStep]
  · rename_i body size w1 heq
    rw [heq] at hd
    simp only at hd
    rw [extractArchive_linkSteps, hd]
    simp [World.log, List.filter_append, List.filter_cons, Call.linkStep]

theorem downloadAndMove_linkSteps (env : Env) (version uri : String) (fos : List FileOperation)
    (downloadPath installPath : String) (w : World) :
    (downloadAndMove env version uri fos downloadPath installPath w).2.calls.filter
      Call.linkStep = w.calls.filter Call.linkStep := by
  have hgot : ∀ w0 : World,
      (if version = headVersion then GetInsecure env uri downloadPath env.HTTPFetcher w0
        else GetWithSha256 env uri downloadPath version env.HTTPFetcher w0).2.calls.filter
          Call.linkStep = w0.calls.filter Call.linkStep := by
    intro w0
    split
    · exact GetInsecure_linkSteps _ _ _ _ _
    · exact GetWithSha256_linkSteps _ _ _ _ _ _
  unfold downloadAndMove
  dsimp only
  split
  · simp [World.log, List.filter_append, List.filter_cons, Call.linkStep]
  · rename_i fs1 hmk
    simp only [withFS_calls]
    have h := hgot ((w.log (Call.downloadAndMove version uri downloadPath installPath)).withFS fs1)
    split
    · rename_i err w2 heq
      rw [heq] at h
      simp only at h
      simp only [withFS_calls, log_calls, List.filter_append, h]
      simp [World.log, List.filter_append, List.filter_cons, Call.linkStep]
    · rename_i w2 heq
      rw [heq] at h
      simp only at h
      simp only [withFS_calls, log_calls, List.filter_append, h]
      simp [List.filter_cons, Call.linkStep]

/-! ## Claims -/

/-- C5 (protected removal): for every collaborator set, `Paths` value and world,
`Remove(p, "krew")` returns the error "removing krew is not allowed through krew", which is
neither nil nor `ErrIsNotInstalled`; the world afterwards is the one before plus the record of
the call to `Remove` itself: the file system is untouched and neither
`findInstalledPluginVersion` nor `removeLink` is called. -/
theorem Remove_krew_rejected (env : Env) (p : Paths) (w : World) :
    Remove env p "krew" w =
        (some (Err.errorf "removing krew is not allowed through krew, see docs for help" []),
          ⟨w.fs, w.calls ++ [Call.Remove "krew"]⟩)
      ∧ (Remove env p "krew" w).1 ≠ none
      ∧ (Remove env p "krew" w).1 ≠ some Err.ErrIsNotInstalled
      ∧ (Remove env p "krew" w).2.fs = w.fs := by
  have h : Remove env p "krew" w =
      (some (Err.errorf "removing krew is not allowed through krew, see docs for help" []),
        ⟨w.fs, w.calls ++ [Call.Remove "krew"]⟩) := by
    unfold Remove
    simp [krewPluginName, World.log]
  rw [h]
  simp

/-- C8 (format dispatch): for every file name, `extractArchive` calls `extractZIP` exactly when
the name ends in ".zip" and `extractTARGZ` exactly when it does not end in ".zip" and ends in
".tar.gz" (the calls it adds to the record are then its own and that extractor's, nothing else);
in these cases its result is the extractor's.  For every other name it returns the
"cannot infer a supported archive type" error and the world is the one before plus the record of
its own call: no extractor runs and the content is not looked at. -/
theorem extractArchive_dispatch (env : Env) (filename dst : String) (r : Bytes) (size : Nat)
    (w : World) :
    ((extractArchive env filename dst r size w).2.calls =
        w.calls ++ [Call.extractArchive filename dst, Call.extractZIP dst]
      ↔ strings.HasSuffix filename ".zip" = true)
    ∧ ((extractArchive env filename dst r size w).2.calls =
        w.calls ++ [Call.extractArchive filename dst, Call.extractTARGZ dst]
      ↔ (strings.HasSuffix filename ".zip" = false ∧ strings.HasSuffix filename ".tar.gz" = true))
    ∧ (strings.HasSuffix filename ".zip" = true →
        extractArchive env filename dst r size w =
          extractZIP env dst r size (w.log (Call.extractArchive filename dst)))
    ∧ (strings.HasSuffix filename ".zip" = false → strings.HasSuffix filename ".tar.gz" = true →
        extractArchive env filename dst r size w =
          extractTARGZ env dst (r.take size) (w.log (Call.extractArchive filename dst)))
    ∧ (strings.HasSuffix filename ".zip" = false → strings.HasSuffix filename ".tar.gz" = false →
        extractArchive env filename dst r size w =
          (some (Err.errorf "cannot infer a supported archive type from filename in the url (%q)"
            [filename]), ⟨w.fs, w.calls ++ [Call.extractArchive filename dst]⟩)) := by
  refine ⟨?_, ?_, ?_, ?_, ?_⟩
  · cases h : strings.HasSuffix filename ".zip"
    · cases h2 : strings.HasSuffix filename ".tar.gz"
      · rw [extractArchive_calls_other env filename dst r size w h h2]
        simp [World.log]
      · rw [extractArchive_calls_targz env filename dst r size w h h2]
        simp
    · rw [extractArchive_calls_zip env filename dst r size w h]
      simp
  · cases h : strings.HasSuffix filename ".zip"
    · cases h2 : strings.HasSuffix filename ".tar.gz"
      · rw [extractArchive_calls_other env filename dst r size w h h2]
        simp [World.log]
      · rw [extractArchive_calls_targz env filename dst r size w h h2]
        simp
    · rw [extractArchive_calls_zip env filename dst r size w h]
      simp
  · intro h
    unfold extractArchive
    simp [h]
  · intro h h2
    unfold extractArchive
    simp [h, h2]
  · intro h h2
    exact extractArchive_calls_other env filename dst r size w h h2

/-- C8 at three file names: "demo.zip" goes to `extractZIP`, "demo.tar.gz" to `extractTARGZ`,
"demo.tgz" to neither. -/
theorem extractArchive_dispatch_witness :
    extractArchive exEnv "demo.zip" "/tmp/x" [80, 75, 1] 3 ⟨exFS, []⟩ =
        extractZIP exEnv "/tmp/x" [80, 75, 1] 3 ⟨exFS, [Call.extractArchive "demo.zip" "/tmp/x"]⟩
      ∧ extractArchive exEnv "demo.tar.gz" "/tmp/x" [31, 139, 1] 3 ⟨exFS, []⟩ =
        extractTARGZ exEnv "/tmp/x" [31, 139, 1]
          ⟨exFS, [Call.extractArchive "demo.tar.gz" "/tmp/x"]⟩
      ∧ extractArchive exEnv "demo.tgz" "/tmp/x" [31, 139, 1] 3 ⟨exFS, []⟩ =
        (some (Err.errorf "cannot infer a supported archive type from filename in the url (%q)"
          ["demo.tgz"]), ⟨exFS, [Call.extractArchive "demo.tgz" "/tmp/x"]⟩) :=
  ⟨(extractArchive_dispatch exEnv "demo.zip" "/tmp/x" [80, 75, 1] 3 ⟨exFS, []⟩).2.2.1
      (by decide),
    (extractArchive_dispatch exEnv "demo.tar.gz" "/tmp/x" [31, 139, 1] 3 ⟨exFS, []⟩).2.2.2.1
      (by decide) (by decide),
    (extractArchive_dispatch exEnv "demo.tgz" "/tmp/x" [31, 139, 1] 3 ⟨exFS, []⟩).2.2.2.2
      (by decide) (by decide)⟩

/-- C3 (verification precedes extraction): for every URI, directory, digest, fetcher and world,
`GetWithSha256` returns the error of `download` when the fetch fails (wrapped by "could not
download"), when the read fails (wrapped by "could not read download content") and when
`Verify()` reports an error (returned as it is); in these three cases the world afterwards is
the one before plus the records of `GetWithSha256`, `download` and the fetch: `extractArchive`
is not called and the file system is the same.  When all three succeed the result is that of
`extractArchive` on the data read.  Starting from an empty record, `extractArchive` is called
if and only if fetch, read and `Verify()` all succeeded. -/
theorem GetWithSha256_verifies_first (env : Env) (uri dir sha : String) (fetcher : Fetcher)
    (w : World) :
    (∀ e, fetcher uri = .error e →
      GetWithSha256 env uri dir sha fetcher w =
        (some (Err.wrapf "could not download %q, err %v: " [uri] e),
          ⟨w.fs, w.calls ++ [Call.GetWithSha256 uri dir sha, Call.download uri, Call.Get uri]⟩))
    ∧ (∀ body e, fetcher uri = .ok body → body.readErr = some e →
      GetWithSha256 env uri dir sha fetcher w =
        (some (Err.wrapf "could not read download content, err %v: " [] e),
          ⟨w.fs, w.calls ++ [Call.GetWithSha256 uri dir sha, Call.download uri, Call.Get uri]⟩))
    ∧ (∀ body e, fetcher uri = .ok body → body.readErr = none →
      env.newSha256Verifier sha body.data = some e →
      GetWithSha256 env uri dir sha fetcher w =
        (some e,
          ⟨w.fs, w.calls ++ [Call.GetWithSha256 uri dir sha, Call.download uri, Call.Get uri]⟩))
    ∧ (∀ body, fetcher uri = .ok body → body.readErr = none →
      env.newSha256Verifier sha body.data = none →
      GetWithSha256 env uri dir sha fetcher w =
        extractArchive env (path.Base uri) dir body.data body.data.length
          ⟨w.fs, w.calls ++ [Call.GetWithSha256 uri dir sha, Call.download uri, Call.Get uri]⟩)
    ∧ (w.calls = [] →
      (Call.extractArchive (path.Base uri) dir ∈ (GetWithSha256 env uri dir sha fetcher w).2.calls
        ↔ ∃ body, fetcher uri = .ok body ∧ body.readErr = none
            ∧ env.newSha256Verifier sha body.data = none)) := by
  have h1 : ∀ e, fetcher uri = .error e →
      GetWithSha256 env uri dir sha fetcher w =
        (some (Err.wrapf "could not download %q, err %v: " [uri] e),
          ⟨w.fs, w.calls ++ [Call.GetWithSha256 uri dir sha, Call.download uri, Call.Get uri]⟩) := by
    intro e he
    simp [GetWithSha256, download, he, World.log]
  have h2 : ∀ body e, fetcher uri = .ok body → body.readErr = some e →
      GetWithSha256 env uri dir sha fetcher w =
        (some (Err.wrapf "could not read download content, err %v: " [] e),
          ⟨w.fs, w.calls ++ [Call.GetWithSha256 uri dir sha, Call.download uri, Call.Get uri]⟩) := by
    intro body e hb he
    simp [GetWithSha256, download, hb, he, World.log]
  have h3 : ∀ body e, fetcher uri = .ok body → body.readErr = none →
      env.newSha256Verifier sha body.data = some e →
      GetWithSha256 env uri dir sha fetcher w =
        (some e,
          ⟨w.fs, w.calls ++ [Call.GetWithSha256 uri dir sha, Call.download uri, Call.Get uri]⟩) := by
    intro body e hb hr hv
    simp [GetWithSha256, download, hb, hr, hv, World.log]
  have h4 : ∀ body, fetcher uri = .ok body → body.readErr = none →
      env.newSha256Verifier sha body.data = none →
      GetWithSha256 env uri dir sha fetcher w =
        extractArchive env (path.Base uri) dir body.data body.data.length
          ⟨w.fs, w.calls ++ [Call.GetWithSha256 uri dir sha, Call.download uri, Call.Get uri]⟩ := by
    intro body hb hr hv
    simp [GetWithSha256, download, hb, hr, hv, World.log]
  refine ⟨h1, h2, h3, h4, ?_⟩
  intro hw
  constructor
  · intro hmem
    cases hf : fetcher uri with
    | error e =>
      rw [h1 e hf] at hmem
      simp [hw] at hmem
    | ok body =>
      cases hr : body.readErr with
      | some e =>
        rw [h2 body e hf hr] at hmem
        simp [hw] at hmem
      | none =>
        cases hv : env.newSha256Verifier sha body.data with
        | some e =>
          rw [h3 body e hf hr hv] at hmem
          simp [hw] at hmem
        | none => exact ⟨body, rfl, hr, hv⟩
  · rintro ⟨body, hf, hr, hv⟩
    rw [h4 body hf hr hv]
    exact extractArchive_calls_mem _ _ _ _ _ _

/-- C3 at the example fetcher: a missing URI, a body cut short and a wrong digest each give an
error with the file system untouched; with the right digest the archive is extracted. -/
theorem GetWithSha256_verifies_first_witness :
    GetWithSha256 exEnv "https://example.com/none.zip" "/tmp" "sxx" exFetcher ⟨exFS, []⟩ =
        (some (Err.wrapf "could not download %q, err %v: " ["https://example.com/none.zip"]
          (Err.ext "404 Not Found")),
          ⟨exFS, [Call.GetWithSha256 "https://example.com/none.zip" "/tmp" "sxx",
            Call.download "https://example.com/none.zip", Call.Get "https://example.com/none.zip"]⟩)
      ∧ GetWithSha256 exEnv "https://example.com/cut.zip" "/tmp" "sxx" exFetcher ⟨exFS, []⟩ =
        (some (Err.wrapf "could not read download content, err %v: " [] (Err.ext "unexpected EOF")),
          ⟨exFS, [Call.GetWithSha256 "https://example.com/cut.zip" "/tmp" "sxx",
            Call.download "https://example.com/cut.zip", Call.Get "https://example.com/cut.zip"]⟩)
      ∧ GetWithSha256 exEnv "https://example.com/demo.zip" "/tmp" "bad" exFetcher ⟨exFS, []⟩ =
        (some (Err.ext "checksum does not match"),
          ⟨exFS, [Call.GetWithSha256 "https://example.com/demo.zip" "/tmp" "bad",
            Call.download "https://example.com/demo.zip", Call.Get "https://example.com/demo.zip"]⟩)
      ∧ GetWithSha256 exEnv "https://example.com/demo.zip" "/tmp" "sxx" exFetcher ⟨exFS, []⟩ =
        extractArchive exEnv "demo.zip" "/tmp" [80, 75, 1] 3
          ⟨exFS, [Call.GetWithSha256 "https://example.com/demo.zip" "/tmp" "sxx",
            Call.download "https://example.com/demo.zip", Call.Get "https://example.com/demo.zip"]⟩ :=
  ⟨(GetWithSha256_verifies_first exEnv "https://example.com/none.zip" "/tmp" "sxx" exFetcher
      ⟨exFS, []⟩).1 (Err.ext "404 Not Found") rfl,
    (GetWithSha256_verifies_first exEnv "https://example.com/cut.zip" "/tmp" "sxx" exFetcher
      ⟨exFS, []⟩).2.1 ⟨[80, 75], some (Err.ext "unexpected EOF")⟩ (Err.ext "unexpected EOF")
      rfl rfl,
    (GetWithSha256_verifies_first exEnv "https://example.com/demo.zip" "/tmp" "bad" exFetcher
      ⟨exFS, []⟩).2.2.1 ⟨[80, 75, 1], none⟩ (Err.ext "checksum does not match")
      rfl rfl (by decide),
    (GetWithSha256_verifies_first exEnv "https://example.com/demo.zip" "/tmp" "sxx" exFetcher
      ⟨exFS, []⟩).2.2.2.1 ⟨[80, 75, 1], none⟩ rfl rfl (by decide)⟩

theorem replaceAll_dash (l : List Char) :
    replaceAll ['-'] ['_'] 0 l = l.map (fun c => if c = '-' then '_' else c) := by
  induction l with
  | nil => simp [replaceAll]
  | cons c cs ih =>
    by_cases h : c = '-'
    · subst h
      simp [replaceAll, ih]
    · have h2 : ¬ '-' = c := fun e => h e.symm
      simp [replaceAll, h, h2, ih]

theorem Symlink_made (fs fs2 : FS) (oldname newname : String)
    (h : os.Symlink fs oldname newname = (none, fs2)) :
    fs2.get (keyOf newname) = some (Node.symlink oldname) := by
  unfold os.Symlink at h
  split at h
  · simp at h
  · rename_i k hloc
    rw [← locate_key _ _ _ _ hloc]
    split at h
    · simp at h
    · rename_i hnone
      split at h
      · split at h
        · simp only [Prod.mk.injEq, true_and] at h
          rw [← h]
          exact get_put_self _ _ _ (get_none_elems _ _ hnone)
        · simp at h
      · simp at h
      · simp at h

/-- C7 (naming transform): for every plugin name and windows flag, `pluginNameToBin` gives
"kubectl-", then the name with each dash turned into an underscore, then ".exe" exactly when the
flag is set; "foo-bar" gives "kubectl-foo_bar" and "kubectl-foo_bar.exe".  The link path is the
bin directory joined with this name in both users: `createOrUpdateLink` calls `removeLink` on
it and, when it succeeds, leaves there the symbolic link to the binary; `Remove` of an installed
plugin other than krew calls `removeLink` on it. -/
theorem pluginNameToBin_transform (name : String) (isWin : Bool) :
    pluginNameToBin name isWin =
        "kubectl-" ++ String.mk (name.data.map (fun c => if c = '-' then '_' else c))
          ++ (if isWin then ".exe" else "")
      ∧ pluginNameToBin "foo-bar" false = "kubectl-foo_bar"
      ∧ pluginNameToBin "foo-bar" true = "kubectl-foo_bar.exe"
      ∧ (∀ (env : Env) (binDir binary : String) (w : World),
          (createOrUpdateLink env binDir binary name w).2.calls =
            w.calls ++ [Call.createOrUpdateLink binDir binary name,
              Call.removeLink (filepath.Join [binDir, pluginNameToBin name env.isWindows])])
      ∧ (∀ (env : Env) (binDir binary : String) (w : World),
          (createOrUpdateLink env binDir binary name w).1 = none →
          (createOrUpdateLink env binDir binary name w).2.fs.get
              (keyOf (filepath.Join [binDir, pluginNameToBin name env.isWindows]))
            = some (Node.symlink binary))
      ∧ (∀ (env : Env) (p : Paths) (w : World) (version : String),
          name ≠ "krew" →
          env.findInstalledPluginVersion w.fs p.InstallPath p.BinPath name
            = (version, true, none) →
          (Remove env p name w).2.calls =
            w.calls ++ [Call.Remove name,
              Call.findInstalledPluginVersion p.InstallPath p.BinPath name,
              Call.removeLink (filepath.Join [p.BinPath, pluginNameToBin name env.isWindows])]) := by
  refine ⟨?_, by decide, by decide, ?_, ?_, ?_⟩
  · unfold pluginNameToBin strings.Replace
    have h := replaceAll_dash name.data
    have h1 : "-".data = ['-'] := rfl
    have h2 : "_".data = ['_'] := rfl
    rw [h1, h2, h]
    cases isWin <;> simp
  · intro env binDir binary w
    exact createOrUpdateLink_calls env binDir binary name w
  · intro env binDir binary w
    unfold createOrUpdateLink
    dsimp only
    split
    · simp
    · split
      · simp
      · split
        · simp
        · rename_i fs2 hsym
          intro _
          exact Symlink_made _ _ _ _ hsym
  · intro env p w version hne hfind
    have hl := removeLink_calls (filepath.Join [p.BinPath, pluginNameToBin name env.isWindows])
      ((w.log (Call.Remove name)).log
        (Call.findInstalledPluginVersion p.InstallPath p.BinPath name))
    unfold Remove
    simp only [krewPluginName, hne, if_false, log_fs, hfind]
    split
    · rename_i err w1 heq
      rw [heq] at hl
      simpa using hl
    · rename_i w1 heq
      rw [heq] at hl
      simpa using hl

set_option maxRecDepth 100000 in
/-- C7 at the example plugin: its link is "/home/u/.krew/bin/kubectl-demo"; installing leaves
the link there, and removing the installed plugin calls `removeLink` on the same path. -/
theorem pluginNameToBin_transform_witness :
    pluginNameToBin "demo" false = "kubectl-demo"
      ∧ (createOrUpdateLink exEnv "/home/u/.krew/bin" "/tmp" "demo" ⟨exFS, []⟩).2.fs.get
          (keyOf "/home/u/.krew/bin/kubectl-demo") = some (Node.symlink "/tmp")
      ∧ (Remove exEnv exPaths "demo" (Install exEnv exPaths exPlugin false ⟨exFS, []⟩).2).2.calls =
          (Install exEnv exPaths exPlugin false ⟨exFS, []⟩).2.calls ++
            [Call.Remove "demo",
              Call.findInstalledPluginVersion "/home/u/.krew/store" "/home/u/.krew/bin" "demo",
              Call.removeLink "/home/u/.krew/bin/kubectl-demo"] :=
  ⟨by decide,
    (pluginNameToBin_transform "demo" false).2.2.2.2.1 exEnv "/home/u/.krew/bin" "/tmp"
      ⟨exFS, []⟩ (by decide),
    (pluginNameToBin_transform "demo" false).2.2.2.2.2 exEnv exPaths
      (Install exEnv exPaths exPlugin false ⟨exFS, []⟩).2 "sxx" (by decide) (by decide)⟩

theorem installLoop_final {σ : Type} (Install : Plugin → σ → Option Err × σ)
    (plugins : List Plugin) (failed : List String) (s : σ) :
    (installLoop Install plugins failed s).2 = installFinal Install plugins s := by
  induction plugins generalizing failed s with
  | nil => rfl
  | cons plugin rest ih =>
    unfold installLoop installFinal
    split
    · rename_i err s1 heq
      have hs : (Install plugin s).2 = s1 := by rw [heq]
      rw [hs]
      split <;> exact ih _ _
    · rename_i s1 heq
      have hs : (Install plugin s).2 = s1 := by rw [heq]
      rw [hs]
      exact ih _ _

theorem installLoop_failed {σ : Type} (Install : Plugin → σ → Option Err × σ)
    (plugins : List Plugin) (failed : List String) (s : σ) :
    (installLoop Install plugins failed s).1 =
      failed ++ ((installOutcomes Install plugins s).filter (fun o => isFailure o.2)).map
        (fun o => o.1) := by
  induction plugins generalizing failed s with
  | nil => simp [installLoop, installOutcomes]
  | cons plugin rest ih =>
    unfold installLoop installOutcomes
    split
    · rename_i err s1 heq
      have hs : (Install plugin s).2 = s1 := by rw [heq]
      have he : (Install plugin s).1 = some err := by rw [heq]
      rw [hs, he]
      by_cases hal : err = Err.ErrIsAlreadyInstalled
      · rw [if_pos hal, ih]
        simp [List.filter_cons, isFailure, hal]
      · rw [if_neg hal, ih]
        simp [List.filter_cons, isFailure, hal]
    · rename_i s1 heq
      have hs : (Install plugin s).2 = s1 := by rw [heq]
      have he : (Install plugin s).1 = none := by rw [heq]
      rw [hs, he, ih]
      simp [List.filter_cons, isFailure]

theorem installFinal_record (out : Plugin → Option Err) (plugins seen : List Plugin) :
    installFinal (fun plugin (s : List Plugin) => (out plugin, s ++ [plugin])) plugins seen
      = seen ++ plugins := by
  induction plugins generalizing seen with
  | nil => simp [installFinal]
  | cons plugin rest ih =>
    unfold installFinal
    rw [ih]
    simp

/-- C2 (link containment): for every plugin, target and world, if `downloadAndMove` succeeded
with install directory `dst` and `pathutil.IsSubPath` says that the absolute path of `dst` joined
with `bin` does not lie below the absolute `dst`, then `install` returns the error "the fullPath
does not extend the sub-fullPath" and the world it leaves is the one `downloadAndMove` left:
`createOrUpdateLink` is not called, so among the calls recorded none touches a link in the bin
directory. -/
theorem install_rejects_bin_outside (env : Env) (plugin version uri bin : String) (p : Paths)
    (fos : List FileOperation) (w w1 : World) (dst subPathAbs pathAbs : String)
    (hd : downloadAndMove env version uri fos (filepath.Join [p.DownloadPath, plugin])
      (p.PluginInstallPath plugin) (w.log (Call.install plugin version uri bin))
        = ((dst, none), w1))
    (ha : filepath.Abs env dst = .ok subPathAbs)
    (hb : filepath.Abs env (filepath.Join [dst, filepath.FromSlash bin]) = .ok pathAbs)
    (hs : (env.IsSubPath subPathAbs pathAbs).2 = false) :
    install env plugin version uri bin p fos w =
        (some (Err.errorf "the fullPath %q does not extend the sub-fullPath %q"
          [filepath.Join [dst, filepath.FromSlash bin], dst]), w1)
      ∧ (install env plugin version uri bin p fos w).2.calls.filter Call.linkStep =
          w.calls.filter Call.linkStep := by
  have h : install env plugin version uri bin p fos w =
      (some (Err.errorf "the fullPath %q does not extend the sub-fullPath %q"
        [filepath.Join [dst, filepath.FromSlash bin], dst]), w1) := by
    unfold install
    simp [hd, ha, hb, hs]
  refine ⟨h, ?_⟩
  rw [h]
  have hl := downloadAndMove_linkSteps env version uri fos (filepath.Join [p.DownloadPath, plugin])
    (p.PluginInstallPath plugin) (w.log (Call.install plugin version uri bin))
  rw [hd] at hl
  simp only at hl
  rw [hl]
  simp [List.filter_append, List.filter_cons, Call.linkStep]

set_option maxRecDepth 100000 in
/-- C2 at the example plugin whose binary path is "../../../../bin/sh": the archive is fetched,
extracted and moved to "/home/u/.krew/store/demo/HEAD", the binary resolves to
"/home/u/bin/sh", and `install` fails without a call that touches a link. -/
theorem install_rejects_bin_outside_witness :
    (install exEnv "demo" "HEAD" "https://example.com/demo.tar.gz" "../../../../bin/sh" exPaths []
        ⟨exFS, []⟩).1 =
        some (Err.errorf "the fullPath %q does not extend the sub-fullPath %q"
          ["/home/u/bin/sh", "/home/u/.krew/store/demo/HEAD"])
      ∧ (install exEnv "demo" "HEAD" "https://example.com/demo.tar.gz" "../../../../bin/sh"
          exPaths [] ⟨exFS, []⟩).2.calls.filter Call.linkStep = [] := by
  have h := install_rejects_bin_outside exEnv "demo" "HEAD" "https://example.com/demo.tar.gz"
    "../../../../bin/sh" exPaths [] ⟨exFS, []⟩
    (downloadAndMove exEnv "HEAD" "https://example.com/demo.tar.gz" []
      "/tmp/krew-downloads/demo" "/home/u/.krew/store/demo"
      ⟨exFS, [Call.install "demo" "HEAD" "https://example.com/demo.tar.gz"
        "../../../../bin/sh"]⟩).2
    "/home/u/.krew/store/demo/HEAD" "/home/u/.krew/store/demo/HEAD" "/home/u/bin/sh"
    (by decide) (by rfl) (by rfl) (by decide)
  exact ⟨by rw [h.1]; decide, h.2⟩

theorem extractTARGZEntry_unsupported (targetDir : String) (bad : TarEntry) (w : World)
    (hname : bad.Name ≠ "pax_global_header") (hdir : bad.Typeflag ≠ TypeDir)
    (hreg : bad.Typeflag ≠ TypeReg) :
    extractTARGZEntry targetDir bad w =
      (some (Err.errorf "unable to handle file type %d for %q in tar"
        [String.singleton bad.Typeflag, bad.Name]), w) := by
  unfold extractTARGZEntry
  simp [hname, hdir, hreg]

theorem extractTARGZLoop_unsupported_err (targetDir : String) (tail : Option Err)
    (pre : List TarEntry) (bad : TarEntry) (post : List TarEntry) (w : World)
    (hname : bad.Name ≠ "pax_global_header") (hdir : bad.Typeflag ≠ TypeDir)
    (hreg : bad.Typeflag ≠ TypeReg) :
    (extractTARGZLoop targetDir tail (pre ++ bad :: post) w).1 ≠ none := by
  induction pre generalizing w with
  | nil =>
    simp [extractTARGZLoop, extractTARGZEntry_unsupported targetDir bad w hname hdir hreg]
  | cons hdr rest ih =>
    rw [List.cons_append]
    unfold extractTARGZLoop
    split
    · simp
    · exact ih _

theorem extractTARGZLoop_unsupported_rest (targetDir : String) (tail tail2 : Option Err)
    (pre : List TarEntry) (bad : TarEntry) (post post2 : List TarEntry) (w : World)
    (hname : bad.Name ≠ "pax_global_header") (hdir : bad.Typeflag ≠ TypeDir)
    (hreg : bad.Typeflag ≠ TypeReg) :
    extractTARGZLoop targetDir tail (pre ++ bad :: post) w =
      extractTARGZLoop targetDir tail2 (pre ++ bad :: post2) w := by
  induction pre generalizing w with
  | nil =>
    simp [extractTARGZLoop, extractTARGZEntry_unsupported targetDir bad w hname hdir hreg]
  | cons hdr rest ih =>
    rw [List.cons_append, List.cons_append]
    unfold extractTARGZLoop
    split
    · rfl
    · exact ih _

theorem extractTARGZLoop_unsupported_state (targetDir : String) (tail : Option Err)
    (pre : List TarEntry) (bad : TarEntry) (post : List TarEntry) (w w1 : World)
    (hname : bad.Name ≠ "pax_global_header") (hdir : bad.Typeflag ≠ TypeDir)
    (hreg : bad.Typeflag ≠ TypeReg)
    (hpre : extractTARGZLoop targetDir none pre w = (none, w1)) :
    extractTARGZLoop targetDir tail (pre ++ bad :: post) w =
      (some (Err.errorf "unable to handle file type %d for %q in tar"
        [String.singleton bad.Typeflag, bad.Name]), w1) := by
  induction pre generalizing w with
  | nil =>
    simp only [extractTARGZLoop, Prod.mk.injEq, true_and] at hpre
    subst hpre
    simp [extractTARGZLoop, extractTARGZEntry_unsupported targetDir bad w hname hdir hreg]
  | cons hdr rest ih =>
    rw [List.cons_append]
    unfold extractTARGZLoop at hpre ⊢
    split
    · rename_i err w2 heq
      rw [heq] at hpre
      simp at hpre
    · rename_i w2 heq
      rw [heq] at hpre
      exact ih _ hpre

/-- C10 as stated fails: the example archive holds the file "a", then the symbolic link "b";
`extractTARGZ` returns the "unable to handle file type" error, yet "a", which was not in the
target directory before, has been extracted into it. -/
theorem extractTARGZ_partial_counterexample :
    exEnv.gzipTarReader [31, 139, 2] =
        .ok ⟨[⟨"a", TypeReg, 0o644, [65], none⟩, ⟨"b", '2', 0o777, [], none⟩,
          ⟨"c", TypeReg, 0o644, [67], none⟩], none⟩
      ∧ (extractTARGZ exEnv "/tmp/x" [31, 139, 2] ⟨exTargetFS, []⟩).1 =
          some (Err.errorf "unable to handle file type %d for %q in tar" ["2", "b"])
      ∧ exTargetFS.get (keyOf "/tmp/x/a") = none
      ∧ (extractTARGZ exEnv "/tmp/x" [31, 139, 2] ⟨exTargetFS, []⟩).2.fs.get (keyOf "/tmp/x/a")
          = some (Node.file 0o644 [65]) := by
  refine ⟨rfl, ?_, ?_, ?_⟩ <;> decide

/-- C10 (amended): for every gzipped tar whose entries include one, other than
"pax_global_header", that is neither a directory nor a regular file, `extractTARGZ` returns an
error; what follows that entry in the archive has no influence on the result; and when the
entries before it extract without error the error is "unable to handle file type" and the world
is the one those entries left, so they stay extracted in the target directory. -/
theorem extractTARGZ_unsupported_entry (env : Env) (targetDir : String) (input : Bytes)
    (w : World) (pre : List TarEntry) (bad : TarEntry) (post : List TarEntry)
    (tail : Option Err)
    (hread : env.gzipTarReader input = .ok ⟨pre ++ bad :: post, tail⟩)
    (hname : bad.Name ≠ "pax_global_header") (hdir : bad.Typeflag ≠ TypeDir)
    (hreg : bad.Typeflag ≠ TypeReg) :
    (extractTARGZ env targetDir input w).1 ≠ none
      ∧ (∀ (post2 : List TarEntry) (tail2 : Option Err),
          extractTARGZ env targetDir input w =
            extractTARGZLoop targetDir tail2 (pre ++ bad :: post2)
              (w.log (Call.extractTARGZ targetDir)))
      ∧ (∀ w1 : World,
          extractTARGZLoop targetDir none pre (w.log (Call.extractTARGZ targetDir)) = (none, w1) →
          extractTARGZ env targetDir input w =
            (some (Err.errorf "unable to handle file type %d for %q in tar"
              [String.singleton bad.Typeflag, bad.Name]), w1)) := by
  have h : extractTARGZ env targetDir input w =
      extractTARGZLoop targetDir tail (pre ++ bad :: post)
        (w.log (Call.extractTARGZ targetDir)) := by
    unfold extractTARGZ
    simp [hread]
  rw [h]
  refine ⟨extractTARGZLoop_unsupported_err _ _ _ _ _ _ hname hdir hreg, ?_, ?_⟩
  · intro post2 tail2
    exact extractTARGZLoop_unsupported_rest _ _ _ _ _ _ _ _ hname hdir hreg
  · intro w1 hpre
    exact extractTARGZLoop_unsupported_state _ _ _ _ _ _ _ hname hdir hreg hpre

/-- C10 (amended) at the example archive: the error is returned with "a" extracted and "c", which
follows the symbolic link, not extracted. -/
theorem extractTARGZ_unsupported_entry_witness :
    extractTARGZ exEnv "/tmp/x" [31, 139, 2] ⟨exTargetFS, []⟩ =
      (some (Err.errorf "unable to handle file type %d for %q in tar" ["2", "b"]),
        ⟨(⟨true, ["tmp", "x", "a"]⟩, Node.file 0o644 [65]) :: exTargetFS,
          [Call.extractTARGZ "/tmp/x"]⟩) :=
  (extractTARGZ_unsupported_entry exEnv "/tmp/x" [31, 139, 2] ⟨exTargetFS, []⟩
    [⟨"a", TypeReg, 0o644, [65], none⟩] ⟨"b", '2', 0o777, [], none⟩
    [⟨"c", TypeReg, 0o644, [67], none⟩] none rfl (by decide) (by decide) (by decide)).2.2
    ⟨(⟨true, ["tmp", "x", "a"]⟩, Node.file 0o644 [65]) :: exTargetFS,
      [Call.extractTARGZ "/tmp/x"]⟩ (by decide)

/-! ## Removing and linking -/

theorem get_del_ne (fs : FS) (k k1 : PathKey) (h : k1 ≠ k) : (fs.del k).get k1 = fs.get k1 := by
  unfold FS.get
  rw [find_del]
  simp [h]

theorem get_del_self (fs : FS) (k : PathKey) (hk : k.elems ≠ []) : (fs.del k).get k = none := by
  unfold FS.get
  rw [find_del]
  simp [hk]

theorem get_del_dir (fs : FS) (k c : PathKey) (m : Nat)
    (h : (fs.del k).get c = some (Node.dir m)) : fs.get c = some (Node.dir m) := by
  by_cases hc : c = k
  · subst hc
    by_cases he : c.elems = []
    · simpa [FS.get, he] using h
    · rw [get_del_self fs c he] at h
      simp at h
  · rw [get_del_ne fs k c hc] at h
    exact h

theorem unlinkKey_cases (fs : FS) (path : String) (k : PathKey) :
    ((unlinkKey fs path k).1 ≠ none ∧ (unlinkKey fs path k).2 = fs)
      ∨ ((unlinkKey fs path k).1 = none ∧ (unlinkKey fs path k).2 = fs.del k ∧ k.elems ≠ []) := by
  unfold unlinkKey
  split
  · left
    simp
  · split
    · left
      simp
    · rename_i hk
      split
      · left
        simp
      · split
        · split
          · left
            simp
          · right
            exact ⟨rfl, rfl, hk⟩
        · right
          exact ⟨rfl, rfl, hk⟩

theorem unlinkKey_notexist (fs : FS) (path : String) (k : PathKey)
    (h : os.IsNotExist (unlinkKey fs path k).1 = true) : fs.get k = none := by
  unfold unlinkKey at h
  split at h
  · rename_i hget
    exact hget
  · split at h
    · simp [os.IsNotExist] at h
    · split at h
      · simp [os.IsNotExist] at h
      · split at h
        · split at h <;> simp [os.IsNotExist] at h
        · simp [os.IsNotExist] at h

theorem Remove_cases (fs : FS) (path : String) :
    ((os.Remove fs path).1 ≠ none ∧ (os.Remove fs path).2 = fs)
      ∨ ((os.Remove fs path).1 = none ∧ (os.Remove fs path).2 = fs.del (keyOf path)
          ∧ (keyOf path).elems ≠ []) := by
  unfold os.Remove
  split
  · left
    simp
  · rename_i k hloc
    have hk := locate_key fs _ _ _ hloc
    rw [← hk]
    exact unlinkKey_cases fs path k

theorem Remove_get (fs : FS) (path : String) (k1 : PathKey) (h : k1 ≠ keyOf path) :
    (os.Remove fs path).2.get k1 = fs.get k1 := by
  rcases Remove_cases fs path with ⟨_, h2⟩ | ⟨_, h2, _⟩
  · rw [h2]
  · rw [h2]
    exact get_del_ne _ _ _ h

theorem Lstat_ok (fs : FS) (path : String) (n : Node) (h : os.Lstat fs path = .ok n) :
    fs.locate "lstat" path = .ok (keyOf path) ∧ fs.get (keyOf path) = some n := by
  unfold os.Lstat at h
  split at h
  · simp at h
  · rename_i k hloc
    have hk := locate_key fs _ _ _ hloc
    subst hk
    split at h
    · rename_i n1 hget
      simp only [Except.ok.injEq] at h
      subst h
      exact ⟨hloc, hget⟩
    · simp at h

theorem Lstat_of_locate (fs : FS) (op path : String) (k : PathKey) (n : Node)
    (hloc : fs.locate op path = .ok k) (hget : fs.get k = some n) : os.Lstat fs path = .ok n := by
  have h2 := locate_congr fs fs op "lstat" path k (fun _ _ hx => hx) hloc
  unfold os.Lstat
  rw [h2]
  simp only
  rw [hget]

theorem Lstat_absent (fs : FS) (path : String) (h : fs.get (keyOf path) = none) :
    pathExists fs path = false := by
  unfold pathExists
  split
  · rename_i n hl
    have := (Lstat_ok fs path n hl).2
    rw [h] at this
    simp at this
  · rfl

theorem Lstat_mono (fs1 fs2 : FS) (path : String) (n : Node)
    (hdir : ∀ c m, fs2.get c = some (Node.dir m) → fs1.get c = some (Node.dir m))
    (hget : fs2.get (keyOf path) = fs1.get (keyOf path))
    (h : os.Lstat fs2 path = .ok n) : os.Lstat fs1 path = .ok n := by
  obtain ⟨hloc, hg⟩ := Lstat_ok fs2 path n h
  have h1 := locate_congr fs2 fs1 "lstat" "lstat" path _ hdir hloc
  exact Lstat_of_locate fs1 _ path _ n h1 (hget ▸ hg)

theorem pathExists_mono (fs1 fs2 : FS) (path : String)
    (hdir : ∀ c m, fs2.get c = some (Node.dir m) → fs1.get c = some (Node.dir m))
    (hget : fs2.get (keyOf path) = fs1.get (keyOf path))
    (h : pathExists fs1 path = false) : pathExists fs2 path = false := by
  unfold pathExists at h ⊢
  split
  · rename_i n hl
    rw [Lstat_mono fs1 fs2 path n hdir hget hl] at h
    simp at h
  · rfl

theorem Lstat_del (fs : FS) (path : String) (target : String)
    (h : os.Lstat fs path = .ok (Node.symlink target)) :
    os.Lstat (fs.del (keyOf path)) path = .error (Err.sys "lstat" path Errno.ENOENT) := by
  obtain ⟨hloc, hg⟩ := Lstat_ok fs path _ h
  have hk : (keyOf path).elems ≠ [] := by
    intro he
    simp [FS.get, he] at hg
  have hdir : ∀ c m, fs.get c = some (Node.dir m) →
      (fs.del (keyOf path)).get c = some (Node.dir m) := by
    intro c m hc
    by_cases hck : c = keyOf path
    · rw [hck, hg] at hc
      simp at hc
    · rw [get_del_ne _ _ _ hck]
      exact hc
  have h1 := locate_congr fs (fs.del (keyOf path)) "lstat" "lstat" path _ hdir hloc
  unfold os.Lstat
  rw [h1]
  simp only
  rw [get_del_self fs _ hk]

theorem Symlink_cases (fs : FS) (oldname newname : String) :
    ((os.Symlink fs oldname newname).1 ≠ none ∧ (os.Symlink fs oldname newname).2 = fs)
      ∨ ((os.Symlink fs oldname newname).1 = none
          ∧ (os.Symlink fs oldname newname).2 = fs.put (keyOf newname) (Node.symlink oldname)
          ∧ fs.get (keyOf newname) = none
          ∧ fs.locate "symlink" newname = .ok (keyOf newname)) := by
  unfold os.Symlink
  split
  · left
    simp
  · rename_i k hloc
    have hk := locate_key fs _ _ _ hloc
    subst hk
    split
    · left
      simp
    · rename_i hfree
      split
      · split
        · right
          exact ⟨rfl, rfl, hfree, hloc⟩
        · left
          simp
      · left
        simp
      · left
        simp

theorem Symlink_get (fs : FS) (oldname newname : String) (k1 : PathKey)
    (h : k1 ≠ keyOf newname) : (os.Symlink fs oldname newname).2.get k1 = fs.get k1 := by
  rcases Symlink_cases fs oldname newname with ⟨_, h2⟩ | ⟨_, h2, _, _⟩
  · rw [h2]
  · rw [h2]
    exact get_put_ne _ _ _ _ h

theorem Symlink_lstat (fs : FS) (oldname newname : String)
    (h : (os.Symlink fs oldname newname).1 = none) :
    os.Lstat (os.Symlink fs oldname newname).2 newname = .ok (Node.symlink oldname)
      ∧ (os.Symlink fs oldname newname).2.get (keyOf newname) = some (Node.symlink oldname) := by
  rcases Symlink_cases fs oldname newname with ⟨h1, _⟩ | ⟨_, h2, hfree, hloc⟩
  · exact absurd h h1
  · rw [h2]
    have hk := get_none_elems fs _ hfree
    have hdir : ∀ c m, fs.get c = some (Node.dir m) →
        (fs.put (keyOf newname) (Node.symlink oldname)).get c = some (Node.dir m) := by
      intro c m hc
      by_cases hck : c = keyOf newname
      · rw [hck, hfree] at hc
        simp at hc
      · rw [get_put_ne _ _ _ _ hck]
        exact hc
    have h3 := locate_congr fs _ "symlink" "symlink" newname _ hdir hloc
    exact ⟨Lstat_of_locate _ _ _ _ _ h3 (get_put_self _ _ _ hk), get_put_self _ _ _ hk⟩

/-! ## Links in the bin directory -/

theorem Remove_symlink (fs : FS) (path target : String)
    (h : os.Lstat fs path = .ok (Node.symlink target)) :
    os.Remove fs path =
      if fs.parentWritable (keyOf path) then (none, fs.del (keyOf path))
      else (some (Err.sys "remove" path Errno.EACCES), fs) := by
  obtain ⟨hloc, hg⟩ := Lstat_ok fs path _ h
  have hk : (keyOf path).elems ≠ [] := by
    intro he
    simp [FS.get, he] at hg
  have h2 := locate_congr fs fs "lstat" "remove" path _ (fun _ _ hx => hx) hloc
  unfold os.Remove
  rw [h2]
  simp only
  unfold unlinkKey
  rw [hg]
  simp only [hk, if_false]
  by_cases hw : fs.parentWritable (keyOf path) = true
  · simp [hw]
  · simp [hw]

theorem removeLink_lstat_error (path : String) (w : World) (e : Err)
    (h : os.Lstat w.fs path = .error e) :
    removeLink path w =
      if os.IsNotExist (some e) then (none, ⟨w.fs, w.calls ++ [Call.removeLink path]⟩)
      else (some (Err.wrapf "failed to read the symlink in %q, err: %v" [path] e),
        ⟨w.fs, w.calls ++ [Call.removeLink path]⟩) := by
  unfold removeLink
  simp only [log_fs, h]
  rfl

theorem removeLink_foreign (path : String) (w : World) (n : Node)
    (h : os.Lstat w.fs path = .ok n) (hn : n.notSymlink = true) :
    removeLink path w =
      (some (Err.errorf "file %q is not a symlink (mode=%s)" [path]),
        ⟨w.fs, w.calls ++ [Call.removeLink path]⟩) := by
  unfold removeLink
  simp only [log_fs, h, hn, if_true]
  rfl

theorem removeLink_symlink (path : String) (w : World) (target : String)
    (h : os.Lstat w.fs path = .ok (Node.symlink target)) :
    removeLink path w =
      if w.fs.parentWritable (keyOf path) then
        (none, ⟨w.fs.del (keyOf path), w.calls ++ [Call.removeLink path]⟩)
      else
        (some (Err.wrapf "failed to remove the symlink in %q, err: %v" [path]
          (Err.sys "remove" path Errno.EACCES)), ⟨w.fs, w.calls ++ [Call.removeLink path]⟩) := by
  have hr := Remove_symlink w.fs path target h
  unfold removeLink
  simp only [log_fs, h, Node.notSymlink]
  rw [hr]
  by_cases hw : w.fs.parentWritable (keyOf path) = true
  · simp [hw, World.log, World.withFS]
  · simp [hw, World.log, World.withFS]

theorem removeLink_get (path : String) (w : World) (k1 : PathKey) (h : k1 ≠ keyOf path) :
    (removeLink path w).2.fs.get k1 = w.fs.get k1 := by
  have hr := Remove_get w.fs path k1 h
  unfold removeLink
  dsimp only
  split
  · split <;> rfl
  · split
    · rfl
    · simp only [log_fs]
      split
      · rename_i err fs1 heq
        rw [heq] at hr
        exact hr
      · rename_i fs1 heq
        rw [heq] at hr
        exact hr

theorem removeLink_fs_cases (path : String) (w : World) :
    (removeLink path w).2.fs = w.fs
      ∨ ((removeLink path w).1 = none ∧ (removeLink path w).2.fs = w.fs.del (keyOf path)) := by
  cases hl : os.Lstat w.fs path with
  | error e =>
    left
    rw [removeLink_lstat_error path w e hl]
    split <;> rfl
  | ok n =>
    cases n with
    | dir m =>
      left
      rw [removeLink_foreign path w _ hl rfl]
    | file m d =>
      left
      rw [removeLink_foreign path w _ hl rfl]
    | symlink t =>
      rw [removeLink_symlink path w t hl]
      split
      · right
        exact ⟨rfl, rfl⟩
      · left
        rfl

/-- C12 as stated fails: on the example file system with the regular file
"/home/u/.krew/bin/note", nothing exists at the path "/home/u/.krew/bin/note/kubectl-x" (no
entry is stored there and `os.Lstat` finds none), yet `removeLink` does not return nil:
`os.Lstat` fails with `ENOTDIR`, which is not a does-not-exist error, and `removeLink` returns
it wrapped by "failed to read the symlink". -/
theorem removeLink_counterexample :
    exNoteFS.get (keyOf "/home/u/.krew/bin/note/kubectl-x") = none
      ∧ pathExists exNoteFS "/home/u/.krew/bin/note/kubectl-x" = false
      ∧ os.Lstat exNoteFS "/home/u/.krew/bin/note/kubectl-x" =
          .error (Err.sys "lstat" "/home/u/.krew/bin/note/kubectl-x" Errno.ENOTDIR)
      ∧ removeLink "/home/u/.krew/bin/note/kubectl-x" ⟨exNoteFS, []⟩ =
          (some (Err.wrapf "failed to read the symlink in %q, err: %v"
            ["/home/u/.krew/bin/note/kubectl-x"]
            (Err.sys "lstat" "/home/u/.krew/bin/note/kubectl-x" Errno.ENOTDIR)),
            ⟨exNoteFS, [Call.removeLink "/home/u/.krew/bin/note/kubectl-x"]⟩)
      ∧ (removeLink "/home/u/.krew/bin/note/kubectl-x" ⟨exNoteFS, []⟩).1 ≠ none := by
  refine ⟨by decide, by decide, rfl, rfl, by decide⟩

/-- C12 (amended): for every path and world, by what `os.Lstat` of the path gives.
When it fails with a does-not-exist error (in particular when every directory on the way to the
path exists and can be searched and no entry is at the path) `removeLink` returns nil and the
file system is the same.  When it fails in another way (a name on the way is not a directory, or
a directory cannot be searched) `removeLink` returns that error wrapped by "failed to read the
symlink" and the file system is the same.  When something is there that is not a symbolic link
it returns the error "file is not a symlink" and the file system is the same, the entry still in
place.  When a symbolic link is there and its directory can be written, `removeLink` returns nil
with that entry removed, so that nothing exists at the path afterwards; when its directory
cannot be written it returns the error of `os.Remove` wrapped by "failed to remove the symlink"
and the file system is the same.  In every case every other path holds what it held before, and
the only call recorded is the one to `removeLink`. -/
theorem removeLink_cases (path : String) (w : World) :
    (∀ e, os.Lstat w.fs path = .error e → os.IsNotExist (some e) = true →
        removeLink path w = (none, ⟨w.fs, w.calls ++ [Call.removeLink path]⟩))
      ∧ (∀ k, w.fs.locate "lstat" path = .ok k → w.fs.get k = none →
        removeLink path w = (none, ⟨w.fs, w.calls ++ [Call.removeLink path]⟩))
      ∧ (∀ e, os.Lstat w.fs path = .error e → os.IsNotExist (some e) = false →
        removeLink path w =
          (some (Err.wrapf "failed to read the symlink in %q, err: %v" [path] e),
            ⟨w.fs, w.calls ++ [Call.removeLink path]⟩))
      ∧ (∀ n, os.Lstat w.fs path = .ok n → n.notSymlink = true →
        removeLink path w =
            (some (Err.errorf "file %q is not a symlink (mode=%s)" [path]),
              ⟨w.fs, w.calls ++ [Call.removeLink path]⟩)
          ∧ os.Lstat (removeLink path w).2.fs path = .ok n)
      ∧ (∀ target, os.Lstat w.fs path = .ok (Node.symlink target) →
        w.fs.parentWritable (keyOf path) = true →
        removeLink path w =
            (none, ⟨w.fs.del (keyOf path), w.calls ++ [Call.removeLink path]⟩)
          ∧ os.Lstat (removeLink path w).2.fs path =
              .error (Err.sys "lstat" path Errno.ENOENT))
      ∧ (∀ target, os.Lstat w.fs path = .ok (Node.symlink target) →
        w.fs.parentWritable (keyOf path) = false →
        removeLink path w =
            (some (Err.wrapf "failed to remove the symlink in %q, err: %v" [path]
              (Err.sys "remove" path Errno.EACCES)),
              ⟨w.fs, w.calls ++ [Call.removeLink path]⟩)
          ∧ os.Lstat (removeLink path w).2.fs path = .ok (Node.symlink target))
      ∧ (∀ k, k ≠ keyOf path → (removeLink path w).2.fs.get k = w.fs.get k) := by
  refine ⟨?_, ?_, ?_, ?_, ?_, ?_, ?_⟩
  · intro e h hne
    rw [removeLink_lstat_error path w e h, if_pos hne]
  · intro k hloc hget
    have hl : os.Lstat w.fs path = .error (Err.sys "lstat" path Errno.ENOENT) := by
      unfold os.Lstat
      rw [hloc]
      simp only
      rw [hget]
    rw [removeLink_lstat_error path w _ hl]
    rfl
  · intro e h hne
    rw [removeLink_lstat_error path w e h, hne]
    rfl
  · intro n h hn
    have hr := removeLink_foreign path w n h hn
    refine ⟨hr, ?_⟩
    rw [hr]
    exact h
  · intro target h hw
    have hr := removeLink_symlink path w target h
    rw [if_pos hw] at hr
    refine ⟨hr, ?_⟩
    rw [hr]
    exact Lstat_del w.fs path target h
  · intro target h hw
    have hr := removeLink_symlink path w target h
    rw [hw] at hr
    refine ⟨hr, ?_⟩
    rw [hr]
    exact h
  · intro k hk
    exact removeLink_get path w k hk

set_option maxRecDepth 100000 in
/-- C12 (amended) on the example file systems: on a path that holds nothing `removeLink`
returns nil and changes nothing; on a path below a regular file it returns the wrapped error of
`os.Lstat`; on the bin directory it fails and changes nothing; on the link it returns nil and
the link is gone. -/
theorem removeLink_cases_witness :
    removeLink "/home/u/.krew/bin/kubectl-none" ⟨exLeftoverFS, []⟩ =
        (none, ⟨exLeftoverFS, [Call.removeLink "/home/u/.krew/bin/kubectl-none"]⟩)
      ∧ removeLink "/home/u/.krew/bin/note/kubectl-x" ⟨exNoteFS, []⟩ =
          (some (Err.wrapf "failed to read the symlink in %q, err: %v"
            ["/home/u/.krew/bin/note/kubectl-x"]
            (Err.sys "lstat" "/home/u/.krew/bin/note/kubectl-x" Errno.ENOTDIR)),
            ⟨exNoteFS, [Call.removeLink "/home/u/.krew/bin/note/kubectl-x"]⟩)
      ∧ removeLink "/home/u/.krew/bin" ⟨exLeftoverFS, []⟩ =
        (some (Err.errorf "file %q is not a symlink (mode=%s)" ["/home/u/.krew/bin"]),
          ⟨exLeftoverFS, [Call.removeLink "/home/u/.krew/bin"]⟩)
      ∧ removeLink "/home/u/.krew/bin/kubectl-demo" ⟨exLeftoverFS, []⟩ =
        (none, ⟨exLeftoverFS.del (keyOf "/home/u/.krew/bin/kubectl-demo"),
          [Call.removeLink "/home/u/.krew/bin/kubectl-demo"]⟩)
      ∧ os.Lstat (removeLink "/home/u/.krew/bin/kubectl-demo" ⟨exLeftoverFS, []⟩).2.fs
          "/home/u/.krew/bin/kubectl-demo" =
            .error (Err.sys "lstat" "/home/u/.krew/bin/kubectl-demo" Errno.ENOENT) :=
  ⟨(removeLink_cases "/home/u/.krew/bin/kubectl-none" ⟨exLeftoverFS, []⟩).1
      (Err.sys "lstat" "/home/u/.krew/bin/kubectl-none" Errno.ENOENT) rfl (by decide),
    (removeLink_cases "/home/u/.krew/bin/note/kubectl-x" ⟨exNoteFS, []⟩).2.2.1
      (Err.sys "lstat" "/home/u/.krew/bin/note/kubectl-x" Errno.ENOTDIR) rfl (by decide),
    ((removeLink_cases "/home/u/.krew/bin" ⟨exLeftoverFS, []⟩).2.2.2.1 (Node.dir 0o755)
      rfl (by decide)).1,
    ((removeLink_cases "/home/u/.krew/bin/kubectl-demo" ⟨exLeftoverFS, []⟩).2.2.2.2.1
      "/home/u/.krew/store/demo/sxx/demo/run" rfl (by decide)).1,
    ((removeLink_cases "/home/u/.krew/bin/kubectl-demo" ⟨exLeftoverFS, []⟩).2.2.2.2.1
      "/home/u/.krew/store/demo/sxx/demo/run" rfl (by decide)).2⟩

theorem createOrUpdateLink_after (env : Env) (binDir binary plugin : String) (w w1 : World)
    (h : removeLink (filepath.Join [binDir, pluginNameToBin plugin env.isWindows])
      (w.log (Call.createOrUpdateLink binDir binary plugin)) = (none, w1)) :
    createOrUpdateLink env binDir binary plugin w =
      if os.IsNotExist
          (match os.Stat w1.fs binary with
            | .error err => some err
            | .ok _ => none) then
        (some (Err.errorf
          "can't create symbolic link, source binary (%q) cannot be found in extracted archive"
          [binary]), w1)
      else
        match os.Symlink w1.fs binary
            (filepath.Join [binDir, pluginNameToBin plugin env.isWindows]) with
        | (some err, fs2) =>
          (some (Err.wrapf "failed to create a symlink form %q to %q, err: %v"
            [binDir, filepath.Join [binDir, pluginNameToBin plugin env.isWindows]] err),
            w1.withFS fs2)
        | (none, fs2) => (none, w1.withFS fs2) := by
  unfold createOrUpdateLink
  simp only [h]

theorem createOrUpdateLink_removeLink_failed (env : Env) (binDir binary plugin : String)
    (w w1 : World) (e : Err)
    (h : removeLink (filepath.Join [binDir, pluginNameToBin plugin env.isWindows])
      (w.log (Call.createOrUpdateLink binDir binary plugin)) = (some e, w1)) :
    createOrUpdateLink env binDir binary plugin w =
      (some (Err.wrapf "failed to remove old symlink, err: %v" [] e), w1) := by
  unfold createOrUpdateLink
  simp only [h]

theorem createOrUpdateLink_after_fs (env : Env) (binDir binary plugin : String) (w w1 : World)
    (h : removeLink (filepath.Join [binDir, pluginNameToBin plugin env.isWindows])
      (w.log (Call.createOrUpdateLink binDir binary plugin)) = (none, w1))
    (herr : (createOrUpdateLink env binDir binary plugin w).1 ≠ none) :
    (createOrUpdateLink env binDir binary plugin w).2.fs = w1.fs := by
  rw [createOrUpdateLink_after env binDir binary plugin w w1 h] at herr ⊢
  split
  · rfl
  · rename_i hstat
    rw [if_neg hstat] at herr
    rcases Symlink_cases w1.fs binary
      (filepath.Join [binDir, pluginNameToBin plugin env.isWindows]) with ⟨_, h2⟩ | ⟨h1, _⟩
    · split
      · rename_i err fs2 hsym
        rw [hsym] at h2
        exact h2
      · rename_i fs2 hsym
        rw [hsym] at herr
        simp at herr
    · split
      · rename_i err fs2 hsym
        rw [hsym] at h1
        simp at h1
      · rename_i fs2 hsym
        rw [hsym] at herr
        simp at herr

theorem createOrUpdateLink_linked (env : Env) (binDir binary plugin : String) (w : World)
    (h : (createOrUpdateLink env binDir binary plugin w).1 = none) :
    os.Lstat (createOrUpdateLink env binDir binary plugin w).2.fs
        (filepath.Join [binDir, pluginNameToBin plugin env.isWindows])
      = .ok (Node.symlink binary)
    ∧ (createOrUpdateLink env binDir binary plugin w).2.fs.get
        (keyOf (filepath.Join [binDir, pluginNameToBin plugin env.isWindows]))
      = some (Node.symlink binary) := by
  unfold createOrUpdateLink at h ⊢
  dsimp only at h ⊢
  split
  · rename_i err w1 heq
    rw [heq] at h
    simp at h
  · rename_i w1 heq
    rw [heq] at h
    simp only at h
    split
    · rename_i hstat
      rw [if_pos hstat] at h
      simp at h
    · rename_i hstat
      rw [if_neg hstat] at h
      have hs := Symlink_lstat w1.fs binary
        (filepath.Join [binDir, pluginNameToBin plugin env.isWindows])
      split
      · rename_i err fs2 hsym
        rw [hsym] at h
        simp at h
      · rename_i fs2 hsym
        rw [hsym] at hs
        exact hs rfl

theorem createOrUpdateLink_get (env : Env) (binDir binary plugin : String) (w : World)
    (k1 : PathKey)
    (h : k1 ≠ keyOf (filepath.Join [binDir, pluginNameToBin plugin env.isWindows])) :
    (createOrUpdateLink env binDir binary plugin w).2.fs.get k1 = w.fs.get k1 := by
  have hr := removeLink_get (filepath.Join [binDir, pluginNameToBin plugin env.isWindows])
    (w.log (Call.createOrUpdateLink binDir binary plugin)) k1 h
  unfold createOrUpdateLink
  dsimp only
  split
  · rename_i err w1 heq
    rw [heq] at hr
    exact hr
  · rename_i w1 heq
    rw [heq] at hr
    split
    · exact hr
    · have hs := Symlink_get w1.fs binary
        (filepath.Join [binDir, pluginNameToBin plugin env.isWindows]) k1 h
      split
      · rename_i err fs2 heq2
        rw [heq2] at hs
        simp only [withFS_fs]
        rw [hs]
        exact hr
      · rename_i fs2 heq2
        rw [heq2] at hs
        simp only [withFS_fs]
        rw [hs]
        exact hr

/-- C11 as stated fails: on the example file system the plugin's link
"/home/u/.krew/bin/kubectl-demo" is a symbolic link; `createOrUpdateLink` called with a binary
path that does not exist returns the "can't create symbolic link" error, and afterwards nothing
exists at the link path: the prior symbolic link has been removed. -/
theorem createOrUpdateLink_counterexample :
    os.Lstat exLeftoverFS "/home/u/.krew/bin/kubectl-demo"
        = .ok (Node.symlink "/home/u/.krew/store/demo/sxx/demo/run")
      ∧ os.Stat exLeftoverFS "/home/u/.krew/store/demo/v2/run"
        = .error (Err.sys "stat" "/home/u/.krew/store/demo/v2/run" Errno.ENOENT)
      ∧ (createOrUpdateLink exEnv "/home/u/.krew/bin" "/home/u/.krew/store/demo/v2/run" "demo"
          ⟨exLeftoverFS, []⟩).1 =
          some (Err.errorf
            "can't create symbolic link, source binary (%q) cannot be found in extracted archive"
            ["/home/u/.krew/store/demo/v2/run"])
      ∧ os.Lstat (createOrUpdateLink exEnv "/home/u/.krew/bin" "/home/u/.krew/store/demo/v2/run"
          "demo" ⟨exLeftoverFS, []⟩).2.fs "/home/u/.krew/bin/kubectl-demo"
        = .error (Err.sys "lstat" "/home/u/.krew/bin/kubectl-demo" Errno.ENOENT)
      ∧ pathExists (createOrUpdateLink exEnv "/home/u/.krew/bin"
          "/home/u/.krew/store/demo/v2/run" "demo" ⟨exLeftoverFS, []⟩).2.fs
          "/home/u/.krew/bin/kubectl-demo" = false := by
  refine ⟨rfl, rfl, by decide, rfl, by decide⟩

/-- C11 (amended): for every bin directory, binary path, plugin name and world,
`createOrUpdateLink` changes no path other than the plugin's link path, and it removes a prior
symbolic link there before it looks at the binary path.
When it succeeds the link path holds a symbolic link to the binary path.
When `removeLink` fails (`os.Lstat` of the link path fails other than with does-not-exist, the
link path holds something that is not a symbolic link, or the prior link cannot be removed
because its directory cannot be written) it returns that error wrapped by "failed to remove old
symlink" and the file system is as it was.
When nothing exists at the link path and it returns an error, the file system is as it was.
When the link path holds a symbolic link whose directory can be written and it returns an error
(`os.Stat` of the binary path reports that it does not exist, or `os.Symlink` fails), the file
system is the one before without the prior link, and nothing exists at the link path; in
particular when `os.Stat` of the binary path fails with a does-not-exist error the result is the
"can't create symbolic link" error. -/
theorem createOrUpdateLink_replaces (env : Env) (binDir binary plugin : String) (w : World) :
    ((createOrUpdateLink env binDir binary plugin w).1 = none →
        os.Lstat (createOrUpdateLink env binDir binary plugin w).2.fs
            (filepath.Join [binDir, pluginNameToBin plugin env.isWindows])
          = .ok (Node.symlink binary))
      ∧ (∀ k, k ≠ keyOf (filepath.Join [binDir, pluginNameToBin plugin env.isWindows]) →
        (createOrUpdateLink env binDir binary plugin w).2.fs.get k = w.fs.get k)
      ∧ (∀ e, os.Lstat w.fs (filepath.Join [binDir, pluginNameToBin plugin env.isWindows])
            = .error e → os.IsNotExist (some e) = false →
        createOrUpdateLink env binDir binary plugin w =
          (some (Err.wrapf "failed to remove old symlink, err: %v" []
            (Err.wrapf "failed to read the symlink in %q, err: %v"
              [filepath.Join [binDir, pluginNameToBin plugin env.isWindows]] e)),
            ⟨w.fs, w.calls ++ [Call.createOrUpdateLink binDir binary plugin,
              Call.removeLink (filepath.Join [binDir, pluginNameToBin plugin env.isWindows])]⟩))
      ∧ (∀ n, os.Lstat w.fs (filepath.Join [binDir, pluginNameToBin plugin env.isWindows])
            = .ok n → n.notSymlink = true →
        createOrUpdateLink env binDir binary plugin w =
          (some (Err.wrapf "failed to remove old symlink, err: %v" []
            (Err.errorf "file %q is not a symlink (mode=%s)"
              [filepath.Join [binDir, pluginNameToBin plugin env.isWindows]])),
            ⟨w.fs, w.calls ++ [Call.createOrUpdateLink binDir binary plugin,
              Call.removeLink (filepath.Join [binDir, pluginNameToBin plugin env.isWindows])]⟩))
      ∧ (∀ target, os.Lstat w.fs (filepath.Join [binDir, pluginNameToBin plugin env.isWindows])
            = .ok (Node.symlink target) →
        w.fs.parentWritable
          (keyOf (filepath.Join [binDir, pluginNameToBin plugin env.isWindows])) = false →
        createOrUpdateLink env binDir binary plugin w =
          (some (Err.wrapf "failed to remove old symlink, err: %v" []
            (Err.wrapf "failed to remove the symlink in %q, err: %v"
              [filepath.Join [binDir, pluginNameToBin plugin env.isWindows]]
              (Err.sys "remove" (filepath.Join [binDir, pluginNameToBin plugin env.isWindows])
                Errno.EACCES))),
            ⟨w.fs, w.calls ++ [Call.createOrUpdateLink binDir binary plugin,
              Call.removeLink (filepath.Join [binDir, pluginNameToBin plugin env.isWindows])]⟩))
      ∧ (∀ e, os.Lstat w.fs (filepath.Join [binDir, pluginNameToBin plugin env.isWindows])
            = .error e → os.IsNotExist (some e) = true →
        (createOrUpdateLink env binDir binary plugin w).1 ≠ none →
        (createOrUpdateLink env binDir binary plugin w).2.fs = w.fs)
      ∧ (∀ target, os.Lstat w.fs (filepath.Join [binDir, pluginNameToBin plugin env.isWindows])
            = .ok (Node.symlink target) →
        w.fs.parentWritable
          (keyOf (filepath.Join [binDir, pluginNameToBin plugin env.isWindows])) = true →
        (createOrUpdateLink env binDir binary plugin w).1 ≠ none →
        (createOrUpdateLink env binDir binary plugin w).2.fs =
            w.fs.del (keyOf (filepath.Join [binDir, pluginNameToBin plugin env.isWindows]))
          ∧ os.Lstat (createOrUpdateLink env binDir binary plugin w).2.fs
              (filepath.Join [binDir, pluginNameToBin plugin env.isWindows]) =
            .error (Err.sys "lstat"
              (filepath.Join [binDir, pluginNameToBin plugin env.isWindows]) Errno.ENOENT))
      ∧ (∀ target e,
        os.Lstat w.fs (filepath.Join [binDir, pluginNameToBin plugin env.isWindows])
          = .ok (Node.symlink target) →
        w.fs.parentWritable
          (keyOf (filepath.Join [binDir, pluginNameToBin plugin env.isWindows])) = true →
        os.Stat (w.fs.del (keyOf (filepath.Join [binDir, pluginNameToBin plugin env.isWindows])))
          binary = .error e →
        os.IsNotExist (some e) = true →
        createOrUpdateLink env binDir binary plugin w =
          (some (Err.errorf
            "can't create symbolic link, source binary (%q) cannot be found in extracted archive"
            [binary]),
            ⟨w.fs.del (keyOf (filepath.Join [binDir, pluginNameToBin plugin env.isWindows])),
              w.calls ++ [Call.createOrUpdateLink binDir binary plugin,
                Call.removeLink
                  (filepath.Join [binDir, pluginNameToBin plugin env.isWindows])]⟩)) := by
  refine ⟨fun h => (createOrUpdateLink_linked env binDir binary plugin w h).1,
    fun k hk => createOrUpdateLink_get env binDir binary plugin w k hk, ?_, ?_, ?_, ?_, ?_, ?_⟩
  · intro e hl hne
    have hr := removeLink_lstat_error
      (filepath.Join [binDir, pluginNameToBin plugin env.isWindows])
      (w.log (Call.createOrUpdateLink binDir binary plugin)) e hl
    rw [hne] at hr
    rw [createOrUpdateLink_removeLink_failed env binDir binary plugin w _ _ hr]
    simp [World.log]
  · intro n hl hn
    have hr := removeLink_foreign (filepath.Join [binDir, pluginNameToBin plugin env.isWindows])
      (w.log (Call.createOrUpdateLink binDir binary plugin)) n hl hn
    rw [createOrUpdateLink_removeLink_failed env binDir binary plugin w _ _ hr]
    simp [World.log]
  · intro target hl hw
    have hr := removeLink_symlink (filepath.Join [binDir, pluginNameToBin plugin env.isWindows])
      (w.log (Call.createOrUpdateLink binDir binary plugin)) target hl
    simp only [log_fs] at hr
    rw [hw] at hr
    rw [createOrUpdateLink_removeLink_failed env binDir binary plugin w _ _ hr]
    simp [World.log]
  · intro e hl hne herr
    have hr := removeLink_lstat_error
      (filepath.Join [binDir, pluginNameToBin plugin env.isWindows])
      (w.log (Call.createOrUpdateLink binDir binary plugin)) e hl
    rw [if_pos hne] at hr
    rw [createOrUpdateLink_after_fs env binDir binary plugin w _ hr herr]
    rfl
  · intro target hl hw herr
    have hr := removeLink_symlink (filepath.Join [binDir, pluginNameToBin plugin env.isWindows])
      (w.log (Call.createOrUpdateLink binDir binary plugin)) target hl
    simp only [log_fs] at hr
    rw [if_pos hw] at hr
    rw [createOrUpdateLink_after_fs env binDir binary plugin w _ hr herr]
    exact ⟨rfl, Lstat_del w.fs _ target hl⟩
  · intro target e hl hw hstat hne
    have hr := removeLink_symlink (filepath.Join [binDir, pluginNameToBin plugin env.isWindows])
      (w.log (Call.createOrUpdateLink binDir binary plugin)) target hl
    simp only [log_fs] at hr
    rw [if_pos hw] at hr
    rw [createOrUpdateLink_after env binDir binary plugin w _ hr]
    simp only
    rw [hstat]
    simp only
    rw [if_pos hne]
    simp [World.log]

set_option maxRecDepth 100000 in
/-- C11 (amended) on the example file system with the plugin's link in place: with a binary
path that does not exist the call fails and the prior link is gone; with the bin directory as
binary path, which exists, the call succeeds and the link points at it. -/
theorem createOrUpdateLink_replaces_witness :
    createOrUpdateLink exEnv "/home/u/.krew/bin" "/home/u/.krew/store/demo/v2/run" "demo"
        ⟨exLeftoverFS, []⟩ =
        (some (Err.errorf
          "can't create symbolic link, source binary (%q) cannot be found in extracted archive"
          ["/home/u/.krew/store/demo/v2/run"]),
          ⟨exLeftoverFS.del (keyOf "/home/u/.krew/bin/kubectl-demo"),
            [Call.createOrUpdateLink "/home/u/.krew/bin" "/home/u/.krew/store/demo/v2/run" "demo",
              Call.removeLink "/home/u/.krew/bin/kubectl-demo"]⟩)
      ∧ os.Lstat (createOrUpdateLink exEnv "/home/u/.krew/bin" "/home/u/.krew/bin" "demo"
          ⟨exLeftoverFS, []⟩).2.fs "/home/u/.krew/bin/kubectl-demo"
          = .ok (Node.symlink "/home/u/.krew/bin") :=
  ⟨(createOrUpdateLink_replaces exEnv "/home/u/.krew/bin" "/home/u/.krew/store/demo/v2/run"
      "demo" ⟨exLeftoverFS, []⟩).2.2.2.2.2.2.2 "/home/u/.krew/store/demo/sxx/demo/run"
      (Err.sys "stat" "/home/u/.krew/store/demo/v2/run" Errno.ENOENT) rfl (by decide) rfl
      (by decide),
    (createOrUpdateLink_replaces exEnv "/home/u/.krew/bin" "/home/u/.krew/bin" "demo"
      ⟨exLeftoverFS, []⟩).1 (by decide)⟩

/-! ## Extraction outside the target directory -/

/-- C1: the extractors make no containment check.  The target directory "/tmp/x" exists, the
example ZIP and the example gzipped tar each hold one entry named "../evil", which joined under
the target is "/tmp/evil", outside the target; `extractZIP` and `extractTARGZ` return no error
and the file "/tmp/evil", absent before, has been created and written. -/
theorem extract_traversal_counterexample :
    filepath.Join ["/tmp/x", filepath.FromSlash "../evil"] = "/tmp/evil"
      ∧ (keyOf "/tmp/x").within (keyOf "/tmp/evil") = false
      ∧ exTargetFS.get (keyOf "/tmp/evil") = none
      ∧ pathExists exTargetFS "/tmp/evil" = false
      ∧ (extractZIP exEnv "/tmp/x" [80, 75, 2] 3 ⟨exTargetFS, []⟩).1 = none
      ∧ (extractZIP exEnv "/tmp/x" [80, 75, 2] 3 ⟨exTargetFS, []⟩).2.fs.get (keyOf "/tmp/evil")
          = some (Node.file 0o644 [66])
      ∧ pathExists (extractZIP exEnv "/tmp/x" [80, 75, 2] 3 ⟨exTargetFS, []⟩).2.fs "/tmp/evil"
          = true
      ∧ (extractTARGZ exEnv "/tmp/x" [31, 139, 3] ⟨exTargetFS, []⟩).1 = none
      ∧ (extractTARGZ exEnv "/tmp/x" [31, 139, 3] ⟨exTargetFS, []⟩).2.fs.get (keyOf "/tmp/evil")
          = some (Node.file 0o644 [66])
      ∧ pathExists (extractTARGZ exEnv "/tmp/x" [31, 139, 3] ⟨exTargetFS, []⟩).2.fs "/tmp/evil"
          = true := by
  refine ⟨?_, ?_, ?_, ?_, ?_, ?_, ?_, ?_, ?_, ?_⟩ <;> decide

/-! ## The install command -/

/-- C9 as stated fails: with the HEAD option set and two plugins to install, the command calls
`Install` for neither (an `Install` that records the names it is called with records nothing)
and returns an error, "can't use HEAD option with multiple plugins", although no call to
`Install` returned one; with the embedded `Install` the world is left as it was. -/
theorem installCmd_head_counterexample :
    installCmdFrom (fun plugin _ (seen : List String) => (none, seen ++ [plugin.Name]))
        (fun seen => (none, seen)) true [⟨"a", "", []⟩, ⟨"b", "", []⟩] []
      = (some (Err.errorf "can't use HEAD option with multiple plugins" []), [])
    ∧ installCmd exEnv exPaths (fun w => (none, w)) true [exPlugin, exLockedPlugin] ⟨exFS, []⟩
      = (some (Err.errorf "can't use HEAD option with multiple plugins" []), ⟨exFS, []⟩) := by
  refine ⟨?_, ?_⟩ <;> rfl

/-- C9 (amended): for every non-empty list of plugins, every function standing for
`installation.Install`, every value of the HEAD option and every starting state, unless the
HEAD option is set and the list holds more than one plugin: the command is its install loop; it
ends in the state reached by calling `Install` once per plugin in list order, each call running
after the one before whatever that one returned (with an `Install` that only records its
argument, the record is the list itself); the `failed` list is exactly the names, in order, of
the plugins whose call returned an error other than `ErrIsAlreadyInstalled`; and the command
returns an error, "failed to install some plugins" with that list, if and only if there is such
a plugin.  The same holds for the command over the embedded `Install`.  When the HEAD option is
set and the list holds more than one plugin, the command returns the error "can't use HEAD
option with multiple plugins" in the state it started in, without calling `Install`. -/
theorem installCmd_batch {σ : Type} (inst : Plugin → Bool → σ → Option Err × σ)
    (Help : σ → Option Err × σ) (forceHEAD : Bool) (plugins : List Plugin) (s : σ)
    (hne : plugins ≠ []) (hhead : ¬ (plugins.length > 1 ∧ forceHEAD = true)) :
    installCmdFrom inst Help forceHEAD plugins s =
        installCmdRun (fun plugin => inst plugin forceHEAD) plugins s
      ∧ (installCmdFrom inst Help forceHEAD plugins s).2 =
          installFinal (fun plugin => inst plugin forceHEAD) plugins s
      ∧ (∀ out : Plugin → Option Err,
          (installCmdFrom (fun plugin _ (seen : List Plugin) => (out plugin, seen ++ [plugin]))
            (fun seen => (none, seen)) forceHEAD plugins []).2 = plugins)
      ∧ (installLoop (fun plugin => inst plugin forceHEAD) plugins [] s).1 =
          ((installOutcomes (fun plugin => inst plugin forceHEAD) plugins s).filter
            (fun o => isFailure o.2)).map (fun o => o.1)
      ∧ ((installCmdFrom inst Help forceHEAD plugins s).1 ≠ none
          ↔ ∃ o ∈ installOutcomes (fun plugin => inst plugin forceHEAD) plugins s,
              isFailure o.2 = true)
      ∧ ((installCmdFrom inst Help forceHEAD plugins s).1 ≠ none →
          (installCmdFrom inst Help forceHEAD plugins s).1 =
            some (Err.errorf "failed to install some plugins: %+v"
              (((installOutcomes (fun plugin => inst plugin forceHEAD) plugins s).filter
                (fun o => isFailure o.2)).map (fun o => o.1))))
      ∧ (∀ (env : Env) (paths : Paths) (help : World → Option Err × World) (w : World),
          installCmd env paths help forceHEAD plugins w =
            installCmdRun (fun plugin => Install env paths plugin forceHEAD) plugins w)
      ∧ (∀ (ps : List Plugin) (t : σ), ps.length > 1 →
          installCmdFrom inst Help true ps t =
            (some (Err.errorf "can't use HEAD option with multiple plugins" []), t)) := by
  have hlen : ¬ plugins.length = 0 := by
    intro h
    exact hne (List.length_eq_zero.mp h)
  have hcmd : ∀ {τ : Type} (f : Plugin → Bool → τ → Option Err × τ)
      (help : τ → Option Err × τ) (t : τ),
      installCmdFrom f help forceHEAD plugins t =
        installCmdRun (fun plugin => f plugin forceHEAD) plugins t := by
    intro τ f help t
    unfold installCmdFrom
    rw [if_neg hhead, if_neg hlen]
  have hstate : ∀ {τ : Type} (f : Plugin → τ → Option Err × τ) (t : τ),
      (installCmdRun f plugins t).2 = installFinal f plugins t := by
    intro τ f t
    unfold installCmdRun
    dsimp only
    split <;> exact installLoop_final f plugins [] t
  have hfailed := installLoop_failed (fun plugin => inst plugin forceHEAD) plugins [] s
  simp only [List.nil_append] at hfailed
  refine ⟨hcmd inst Help s, ?_, ?_, hfailed, ?_, ?_, ?_, ?_⟩
  · rw [hcmd]
    exact hstate _ s
  · intro out
    rw [hcmd, hstate, installFinal_record]
    simp
  · rw [hcmd]
    unfold installCmdRun
    dsimp only
    rw [hfailed]
    constructor
    · intro h
      split at h
      · rename_i hl
        have hne2 : ((installOutcomes (fun plugin => inst plugin forceHEAD) plugins s).filter
            (fun o => isFailure o.2)) ≠ [] := by
          intro he
          simp [he] at hl
        obtain ⟨o, ho⟩ := List.exists_mem_of_ne_nil _ hne2
        rw [List.mem_filter] at ho
        exact ⟨o, ho.1, ho.2⟩
      · simp at h
    · rintro ⟨o, ho, hf⟩
      have hmem : o ∈ (installOutcomes (fun plugin => inst plugin forceHEAD) plugins s).filter
          (fun o => isFailure o.2) :=
        List.mem_filter.mpr ⟨ho, hf⟩
      have hl : (((installOutcomes (fun plugin => inst plugin forceHEAD) plugins s).filter
          (fun o => isFailure o.2)).map (fun o => o.1)).length > 0 := by
        rw [List.length_map]
        exact List.length_pos_of_mem hmem
      rw [if_pos hl]
      simp
  · rw [hcmd]
    unfold installCmdRun
    dsimp only
    rw [hfailed]
    intro h
    split at h
    · rename_i hl
      rw [if_pos hl]
    · simp at h
  · intro env paths help w
    unfold installCmd
    exact hcmd _ help w
  · intro ps t hps
    unfold installCmdFrom
    rw [if_pos ⟨hps, rfl⟩]

/-- C9 (amended) at three plugins of which the first is already installed, the second fails and
the third succeeds, without the HEAD option: all three are attempted, in order, and only the
second is reported. -/
theorem installCmd_batch_witness :
    installCmdFrom
      (fun plugin _ (seen : List String) =>
        (if plugin.Name = "a" then some Err.ErrIsAlreadyInstalled
          else if plugin.Name = "b" then some (Err.ext "404 Not Found") else none,
          seen ++ [plugin.Name]))
      (fun seen => (none, seen)) false
      [⟨"a", "", []⟩, ⟨"b", "", []⟩, ⟨"c", "", []⟩] []
    = (some (Err.errorf "failed to install some plugins: %+v" ["b"]), ["a", "b", "c"]) := by
  have h := (installCmd_batch
    (fun plugin _ (seen : List String) =>
      (if plugin.Name = "a" then some Err.ErrIsAlreadyInstalled
        else if plugin.Name = "b" then some (Err.ext "404 Not Found") else none,
        seen ++ [plugin.Name]))
    (fun seen => (none, seen)) false
    [⟨"a", "", []⟩, ⟨"b", "", []⟩, ⟨"c", "", []⟩] [] (by decide) (by decide)).2.2.2.2.2.1
    (by decide)
  exact Prod.ext h (by decide)

/-! ## Installing twice -/

theorem install_linked (env : Env) (plugin version uri bin : String) (p : Paths)
    (fos : List FileOperation) (w : World)
    (h : (install env plugin version uri bin p fos w).1 = none) :
    ∃ binary, os.Lstat (install env plugin version uri bin p fos w).2.fs
      (filepath.Join [p.BinPath, pluginNameToBin plugin env.isWindows])
        = .ok (Node.symlink binary) := by
  unfold install at h ⊢
  dsimp only at h ⊢
  split
  · rename_i x err w1 heq
    rw [heq] at h
    simp at h
  · rename_i dst w1 heq
    rw [heq] at h
    simp only at h
    split
    · rename_i err habs
      rw [habs] at h
      simp at h
    · rename_i subPathAbs habs
      rw [habs] at h
      simp only at h
      split
      · rename_i err habs2
        rw [habs2] at h
        simp at h
      · rename_i pathAbs habs2
        rw [habs2] at h
        simp only at h
        split
        · rename_i hsub
          rw [if_pos hsub] at h
          simp at h
        · rename_i hsub
          rw [if_neg hsub] at h
          exact ⟨_, (createOrUpdateLink_linked env _ _ _ _ h).1⟩

theorem Install_linked (env : Env) (p : Paths) (plugin : Plugin) (forceHEAD : Bool) (w : World)
    (h : (Install env p plugin forceHEAD w).1 = none) :
    ∃ binary, os.Lstat (Install env p plugin forceHEAD w).2.fs
      (filepath.Join [p.BinPath, pluginNameToBin plugin.Name env.isWindows])
        = .ok (Node.symlink binary) := by
  unfold Install at h ⊢
  dsimp only at h ⊢
  split
  · rename_i a b err heq
    rw [heq] at h
    simp at h
  · rename_i a heq
    rw [heq] at h
    simp at h
  · rename_i a heq
    rw [heq] at h
    simp only at h
    split
    · rename_i err ht
      rw [ht] at h
      simp at h
    · rename_i t ht
      rw [ht] at h
      simp only at h
      exact install_linked env _ _ _ _ p _ _ h

theorem exEnv_lookup (installPath binPath name : String) :
    LookupFollowsLink exEnv installPath binPath name := by
  intro fs target h
  have h2 : os.Lstat fs (filepath.Join [binPath, pluginNameToBin name false])
      = .ok (Node.symlink target) := h
  refine ⟨(exIsSubPath (filepath.Join [installPath, name]) target).1.headD "", ?_⟩
  show exFindInstalled fs installPath binPath name = _
  unfold exFindInstalled
  rw [h2]

/-- C6 (install idempotence): for every plugin, either value of `forceHEAD` and every world.
Whenever `findInstalledPluginVersion` reports the plugin installed without an error, `Install`
returns exactly `ErrIsAlreadyInstalled`; the world afterwards is the one before plus the records
of the call to `Install` and of the lookup: no target is resolved, nothing is downloaded, no
directory is made, nothing is moved, no link is touched, and the file system is the same.
Whenever `Install` succeeds, the plugin's link in the bin directory is a symbolic link
afterwards.  Hence, the lookup reporting a plugin installed whose link is a symbolic link, a
second `Install` of the same plugin in the world a successful first one left, with either value
of `forceHEAD`, returns `ErrIsAlreadyInstalled` with the file system unchanged and only its own
two records added. -/
theorem Install_already_installed (env : Env) (p : Paths) (plugin : Plugin) (forceHEAD : Bool)
    (w : World) :
    (∀ version, env.findInstalledPluginVersion w.fs p.InstallPath p.BinPath plugin.Name
        = (version, true, none) →
      Install env p plugin forceHEAD w =
        (some Err.ErrIsAlreadyInstalled,
          ⟨w.fs, w.calls ++ [Call.Install plugin.Name forceHEAD,
            Call.findInstalledPluginVersion p.InstallPath p.BinPath plugin.Name]⟩))
    ∧ (∀ w1, Install env p plugin forceHEAD w = (none, w1) →
      ∃ binary, os.Lstat w1.fs
        (filepath.Join [p.BinPath, pluginNameToBin plugin.Name env.isWindows])
          = .ok (Node.symlink binary))
    ∧ (LookupFollowsLink env p.InstallPath p.BinPath plugin.Name →
      ∀ w1 force2, Install env p plugin forceHEAD w = (none, w1) →
        Install env p plugin force2 w1 =
          (some Err.ErrIsAlreadyInstalled,
            ⟨w1.fs, w1.calls ++ [Call.Install plugin.Name force2,
              Call.findInstalledPluginVersion p.InstallPath p.BinPath plugin.Name]⟩)) := by
  have harm : ∀ (w0 : World) (force : Bool) (version : String),
      env.findInstalledPluginVersion w0.fs p.InstallPath p.BinPath plugin.Name
        = (version, true, none) →
      Install env p plugin force w0 =
        (some Err.ErrIsAlreadyInstalled,
          ⟨w0.fs, w0.calls ++ [Call.Install plugin.Name force,
            Call.findInstalledPluginVersion p.InstallPath p.BinPath plugin.Name]⟩) := by
    intro w0 force version h
    unfold Install
    simp [World.log, h]
  have hlink : ∀ w1, Install env p plugin forceHEAD w = (none, w1) →
      ∃ binary, os.Lstat w1.fs
        (filepath.Join [p.BinPath, pluginNameToBin plugin.Name env.isWindows])
          = .ok (Node.symlink binary) := by
    intro w1 h
    have h2 := Install_linked env p plugin forceHEAD w (by rw [h])
    rw [h] at h2
    exact h2
  refine ⟨harm w forceHEAD, hlink, ?_⟩
  intro hlookup w1 force2 h
  obtain ⟨binary, hb⟩ := hlink w1 h
  obtain ⟨version, hv⟩ := hlookup w1.fs binary hb
  exact harm w1 force2 version hv

set_option maxRecDepth 100000 in
/-- C6 at the example plugin: the first `Install` succeeds, and the second `Install`, with
either value of `forceHEAD`, returns `ErrIsAlreadyInstalled` on an unchanged file system. -/
theorem Install_already_installed_witness :
    (Install exEnv exPaths exPlugin false ⟨exFS, []⟩).1 = none
      ∧ (Install exEnv exPaths exPlugin true
          (Install exEnv exPaths exPlugin false ⟨exFS, []⟩).2) =
          (some Err.ErrIsAlreadyInstalled,
            ⟨(Install exEnv exPaths exPlugin false ⟨exFS, []⟩).2.fs,
              (Install exEnv exPaths exPlugin false ⟨exFS, []⟩).2.calls ++
                [Call.Install "demo" true,
                  Call.findInstalledPluginVersion "/home/u/.krew/store" "/home/u/.krew/bin"
                    "demo"]⟩) :=
  ⟨by decide,
    (Install_already_installed exEnv exPaths exPlugin false ⟨exFS, []⟩).2.2
      (exEnv_lookup _ _ _) (Install exEnv exPaths exPlugin false ⟨exFS, []⟩).2 true
      (Prod.ext (by decide) rfl)⟩

/-! ## The download directory -/

theorem mkdirKey_get (fs : FS) (path : String) (k : PathKey) (mode : Nat) (k1 : PathKey)
    (h : k1 ≠ k) : (mkdirKey fs path k mode).2.get k1 = fs.get k1 := by
  unfold mkdirKey
  split
  · rfl
  · split
    · exact get_put_ne _ _ _ _ h
    · rfl
    · rfl

theorem mkdirAllRev_get_longer (path : String) (rooted : Bool) (mode : Nat) (rev : List String)
    (fs : FS) (k1 : PathKey) (h : rev.length < k1.elems.length) :
    (mkdirAllRev path rooted mode rev fs).2.get k1 = fs.get k1 := by
  induction rev generalizing fs with
  | nil => rfl
  | cons e parentRev ih =>
    have hp : parentRev.length < k1.elems.length := by
      simp only [List.length_cons] at h
      omega
    have hne : k1 ≠ ⟨rooted, (e :: parentRev).reverse⟩ := by
      intro heq
      rw [heq] at h
      simp at h
    unfold mkdirAllRev
    dsimp only
    split
    · rfl
    · rfl
    · have hrec := ih fs hp
      split
      · rename_i err fs1 heq
        rw [heq] at hrec
        exact hrec
      · rename_i fs1 heq
        rw [heq] at hrec
        rw [mkdirKey_get _ _ _ _ _ hne]
        exact hrec

theorem mkdirKey_fail (fs : FS) (path : String) (k : PathKey) (mode : Nat)
    (h : (mkdirKey fs path k mode).1 ≠ none) : (mkdirKey fs path k mode).2 = fs := by
  unfold mkdirKey at h ⊢
  split
  · rfl
  · split
    · rename_i h1 _ _ h2
      rw [h1] at h
      simp only at h
      rw [h2] at h
      simp at h
    · rfl
    · rfl

theorem mkdirAllRev_fail_self (path : String) (rooted : Bool) (mode : Nat) (rev : List String)
    (fs : FS) (h : (mkdirAllRev path rooted mode rev fs).1 ≠ none) :
    (mkdirAllRev path rooted mode rev fs).2.get ⟨rooted, rev.reverse⟩ =
      fs.get ⟨rooted, rev.reverse⟩ := by
  cases rev with
  | nil => rfl
  | cons e parentRev =>
    have hlong := mkdirAllRev_get_longer path rooted mode parentRev fs
      ⟨rooted, (e :: parentRev).reverse⟩ (by simp)
    unfold mkdirAllRev at h ⊢
    dsimp only at h ⊢
    split
    · rfl
    · rfl
    · rename_i hstat
      rw [hstat] at h
      simp only at h
      split
      · rename_i err fs1 heq
        rw [heq] at hlong
        exact hlong
      · rename_i fs1 heq
        rw [heq] at hlong h
        simp only at h
        rw [mkdirKey_fail _ _ _ _ h]
        exact hlong

theorem MkdirAll_fail_self (fs : FS) (path : String) (mode : Nat)
    (h : (os.MkdirAll fs path mode).1 ≠ none) :
    (os.MkdirAll fs path mode).2.get (keyOf path) = fs.get (keyOf path) := by
  unfold os.MkdirAll at h ⊢
  have h2 := mkdirAllRev_fail_self path (keyOf path).rooted mode (keyOf path).elems.reverse fs h
  simpa using h2

theorem removeAllKey_gone (path : String) (depth : Nat) (fs : FS) (k : PathKey)
    (h : (removeAllKey path depth fs k).1 = none) :
    (removeAllKey path depth fs k).2.get k = none := by
  cases depth with
  | zero =>
    unfold removeAllKey at h
    simp at h
  | succ depth =>
    unfold removeAllKey at h ⊢
    split
    · rename_i fs1 heq
      rcases unlinkKey_cases fs path k with ⟨h1, _⟩ | ⟨_, h2, hk⟩
      · rw [heq] at h1
        simp at h1
      · rw [heq] at h2
        simp only at h2 ⊢
        rw [h2]
        exact get_del_self fs k hk
    · rename_i err fs0 heq
      rw [heq] at h
      simp only at h
      split
      · rename_i hne
        simp only
        apply unlinkKey_notexist fs path k
        rw [heq]
        exact hne
      · rename_i hne
        rw [if_neg hne] at h
        split
        · rename_i hsearch
          rw [if_pos hsearch] at h
          simp at h
        · rename_i hsearch
          rw [if_neg hsearch] at h
          split
          · rename_i mode hget
            rw [hget] at h
            simp only at h
            split
            · rename_i hread
              rw [if_pos hread] at h
              simp at h
            · rename_i hread
              rw [if_neg hread] at h
              simp only at h ⊢
              split
              · rename_i fs2 heq2
                rcases unlinkKey_cases _ path k with ⟨h1, _⟩ | ⟨_, h2, hk⟩
                · rw [heq2] at h1
                  simp at h1
                · rw [heq2] at h2
                  simp only at h2 ⊢
                  rw [h2]
                  exact get_del_self _ k hk
              · rename_i err1 fs2 heq2
                rw [heq2] at h
                simp only at h
                split
                · rename_i hne1
                  simp only
                  rcases unlinkKey_cases _ path k with ⟨_, h2⟩ | ⟨h1, _⟩
                  · rw [heq2] at h2
                    simp only at h2
                    rw [h2]
                    apply unlinkKey_notexist _ path k
                    rw [heq2]
                    exact hne1
                  · rw [heq2] at h1
                    simp at h1
                · rename_i hne1
                  rw [if_neg hne1] at h
                  simp at h
          · simp at h

theorem RemoveAll_absent (fs : FS) (path : String) (h : (os.RemoveAll fs path).1 = none) :
    pathExists (os.RemoveAll fs path).2 path = false := by
  have hloc : ∀ n, os.Lstat fs path = .ok n → fs.locate "remove" path = .ok (keyOf path) := by
    intro n hn
    exact locate_congr fs fs "lstat" "remove" path _ (fun _ _ hx => hx) (Lstat_ok fs path n hn).1
  have hnone : ∀ e, fs.locate "remove" path = .error e → pathExists fs path = false := by
    intro e he
    unfold pathExists
    split
    · rename_i n hn
      rw [hloc n hn] at he
      simp at he
    · rfl
  unfold os.RemoveAll at h ⊢
  split
  · rename_i hp
    subst hp
    rfl
  · rename_i hp
    rw [if_neg hp] at h
    split
    · rename_i a b heq
      exact hnone _ heq
    · rename_i a b heq
      exact hnone _ heq
    · rename_i err h1 h2 heq
      exact hnone _ heq
    · rename_i k heq
      rw [heq] at h
      simp only at h
      have hk := locate_key fs _ _ _ heq
      subst hk
      exact Lstat_absent _ _ (removeAllKey_gone _ _ _ _ h)

theorem extractArchive_cleanups (env : Env) (filename dst : String) (r : Bytes) (size : Nat)
    (w : World) :
    (extractArchive env filename dst r size w).2.calls.filter Call.isCleanup =
      w.calls.filter Call.isCleanup := by
  cases h : strings.HasSuffix filename ".zip"
  · cases h2 : strings.HasSuffix filename ".tar.gz"
    · rw [extractArchive_calls_other env filename dst r size w h h2]
      simp [World.log, List.filter_append, Call.isCleanup]
    · rw [extractArchive_calls_targz env filename dst r size w h h2]
      simp [List.filter_append, List.filter_cons, Call.isCleanup]
  · rw [extractArchive_calls_zip env filename dst r size w h]
    simp [List.filter_append, List.filter_cons, Call.isCleanup]

theorem GetWithSha256_cleanups (env : Env) (uri dir sha : String) (fetcher : Fetcher)
    (w : World) :
    (GetWithSha256 env uri dir sha fetcher w).2.calls.filter Call.isCleanup =
      w.calls.filter Call.isCleanup := by
  have hd := download_world uri (env.newSha256Verifier sha) fetcher
    (w.log (Call.GetWithSha256 uri dir sha))
  unfold GetWithSha256
  dsimp only
  split
  · rename_i a b err w1 heq
    rw [heq] at hd
    simp only at hd
    rw [hd]
    simp [World.log, List.filter_append, List.filter_cons, Call.isCleanup]
  · rename_i body size w1 heq
    rw [heq] at hd
    simp only at hd
    rw [extractArchive_cleanups, hd]
    simp [World.log, List.filter_append, List.filter_cons, Call.isCleanup]

theorem GetInsecure_cleanups (env : Env) (uri dir : String) (fetcher : Fetcher) (w : World) :
    (GetInsecure env uri dir fetcher w).2.calls.filter Call.isCleanup =
      w.calls.filter Call.isCleanup := by
  have hd := download_world uri newTrueVerifier fetcher (w.log (Call.GetInsecure uri dir))
  unfold GetInsecure
  dsimp only
  split
  · rename_i a b err w1 heq
    rw [heq] at hd
    simp only at hd
    rw [hd]
    simp [World.log, List.filter_append, List.filter_cons, Call.isCleanup]
  · rename_i body size w1 heq
    rw [heq] at hd
    simp only at hd
    rw [extractArchive_cleanups, hd]
    simp [World.log, List.filter_append, List.filter_cons, Call.isCleanup]

theorem downloadAndMove_mkdir_failed (env : Env) (version uri : String)
    (fos : List FileOperation) (downloadPath installPath : String) (w : World)
    (h : (os.MkdirAll w.fs downloadPath 0o755).1 ≠ none) :
    (downloadAndMove env version uri fos downloadPath installPath w).1.2 ≠ none
      ∧ (downloadAndMove env version uri fos downloadPath installPath w).2 =
        ⟨(os.MkdirAll w.fs downloadPath 0o755).2,
          w.calls ++ [Call.downloadAndMove version uri downloadPath installPath]⟩ := by
  unfold downloadAndMove
  dsimp only
  split
  · rename_i err fs1 heq
    simp only [log_fs] at heq
    rw [heq]
    simp [World.log, World.withFS]
  · rename_i fs1 heq
    simp only [log_fs] at heq
    rw [heq] at h
    simp at h

theorem downloadAndMove_cleaned (env : Env) (version uri : String) (fos : List FileOperation)
    (downloadPath installPath : String) (w : World)
    (h : (os.MkdirAll w.fs downloadPath 0o755).1 = none) :
    ∃ err, (downloadAndMove env version uri fos downloadPath installPath w).2.calls.filter
          Call.isCleanup =
        w.calls.filter Call.isCleanup ++ [Call.deferredRemoveAll downloadPath err]
      ∧ (err = none →
        pathExists (downloadAndMove env version uri fos downloadPath installPath w).2.fs
          downloadPath = false) := by
  have hgot : ∀ w0 : World,
      (if version = headVersion then GetInsecure env uri downloadPath env.HTTPFetcher w0
        else GetWithSha256 env uri downloadPath version env.HTTPFetcher w0).2.calls.filter
          Call.isCleanup = w0.calls.filter Call.isCleanup := by
    intro w0
    split
    · exact GetInsecure_cleanups _ _ _ _ _
    · exact GetWithSha256_cleanups _ _ _ _ _ _
  unfold downloadAndMove
  dsimp only
  split
  · rename_i err fs1 heq
    simp only [log_fs] at heq
    rw [heq] at h
    simp at h
  · rename_i fs1 hmk
    have hg := hgot ((w.log (Call.downloadAndMove version uri downloadPath installPath)).withFS fs1)
    simp only [withFS_calls, log_calls, withFS_fs, log_fs]
    split
    · rename_i err w2 heq
      rw [heq] at hg
      simp only at hg
      refine ⟨_, ?_, fun he => RemoveAll_absent _ _ he⟩
      simp only [List.filter_append, hg, withFS_calls, log_calls]
      simp [List.filter_cons, Call.isCleanup]
    · rename_i w2 heq
      rw [heq] at hg
      simp only at hg
      refine ⟨_, ?_, fun he => RemoveAll_absent _ _ he⟩
      simp only [List.filter_append, hg, withFS_calls, log_calls]
      simp [List.filter_cons, Call.isCleanup]

theorem createOrUpdateLink_dirs (env : Env) (binDir binary plugin : String) (w : World)
    (c : PathKey) (m : Nat)
    (h : (createOrUpdateLink env binDir binary plugin w).2.fs.get c = some (Node.dir m)) :
    w.fs.get c = some (Node.dir m) := by
  by_cases hc : c = keyOf (filepath.Join [binDir, pluginNameToBin plugin env.isWindows])
  · by_cases hok : (createOrUpdateLink env binDir binary plugin w).1 = none
    · rw [hc, (createOrUpdateLink_linked env binDir binary plugin w hok).2] at h
      simp at h
    · cases hr : removeLink (filepath.Join [binDir, pluginNameToBin plugin env.isWindows])
          (w.log (Call.createOrUpdateLink binDir binary plugin)) with
      | mk r1 w1 =>
        have hcases := removeLink_fs_cases
          (filepath.Join [binDir, pluginNameToBin plugin env.isWindows])
          (w.log (Call.createOrUpdateLink binDir binary plugin))
        rw [hr] at hcases
        simp only [log_fs] at hcases
        cases r1 with
        | some e =>
          rw [createOrUpdateLink_removeLink_failed env binDir binary plugin w _ _ hr] at h
          simp only at h
          rcases hcases with h1 | ⟨h1, _⟩
          · rw [h1] at h
            exact h
          · simp at h1
        | none =>
          rw [createOrUpdateLink_after_fs env binDir binary plugin w _ hr hok] at h
          rcases hcases with h1 | ⟨_, h1⟩
          · rw [h1] at h
            exact h
          · rw [h1] at h
            exact get_del_dir _ _ _ _ h
  · rw [createOrUpdateLink_get env binDir binary plugin w c hc] at h
    exact h

theorem createOrUpdateLink_absent (env : Env) (binDir binary plugin : String) (w : World)
    (path : String)
    (hlink : keyOf (filepath.Join [binDir, pluginNameToBin plugin env.isWindows]) ≠ keyOf path)
    (h : pathExists w.fs path = false) :
    pathExists (createOrUpdateLink env binDir binary plugin w).2.fs path = false :=
  pathExists_mono w.fs _ path
    (fun c m hc => createOrUpdateLink_dirs env binDir binary plugin w c m hc)
    (createOrUpdateLink_get env binDir binary plugin w _ (fun he => hlink he.symm)) h

theorem createOrUpdateLink_cleanups (env : Env) (binDir binary plugin : String) (w : World) :
    (createOrUpdateLink env binDir binary plugin w).2.calls.filter Call.isCleanup =
      w.calls.filter Call.isCleanup := by
  rw [createOrUpdateLink_calls]
  simp [List.filter_append, List.filter_cons, Call.isCleanup]

theorem install_after (env : Env) (plugin version uri bin : String) (p : Paths)
    (fos : List FileOperation) (w : World) :
    ((install env plugin version uri bin p fos w).2 =
        (downloadAndMove env version uri fos (filepath.Join [p.DownloadPath, plugin])
          (p.PluginInstallPath plugin) (w.log (Call.install plugin version uri bin))).2)
      ∨ (∃ binary, (install env plugin version uri bin p fos w).2 =
        (createOrUpdateLink env p.BinPath binary plugin
          (downloadAndMove env version uri fos (filepath.Join [p.DownloadPath, plugin])
            (p.PluginInstallPath plugin) (w.log (Call.install plugin version uri bin))).2).2) := by
  unfold install
  dsimp only
  split
  · rename_i x err w1 heq
    left
    rw [heq]
  · rename_i dst w1 heq
    rw [heq]
    split
    · left
      rfl
    · split
      · left
        rfl
      · split
        · left
          rfl
        · right
          exact ⟨_, rfl⟩

theorem install_cleaned (env : Env) (plugin version uri bin : String) (p : Paths)
    (fos : List FileOperation) (w : World)
    (hlink : keyOf (filepath.Join [p.BinPath, pluginNameToBin plugin env.isWindows]) ≠
      keyOf (filepath.Join [p.DownloadPath, plugin]))
    (h : (os.MkdirAll w.fs (filepath.Join [p.DownloadPath, plugin]) 0o755).1 = none) :
    ∃ err, (install env plugin version uri bin p fos w).2.calls.filter Call.isCleanup =
        w.calls.filter Call.isCleanup ++
          [Call.deferredRemoveAll (filepath.Join [p.DownloadPath, plugin]) err]
      ∧ (err = none →
        pathExists (install env plugin version uri bin p fos w).2.fs
          (filepath.Join [p.DownloadPath, plugin]) = false) := by
  obtain ⟨err, hc, hp⟩ := downloadAndMove_cleaned env version uri fos
    (filepath.Join [p.DownloadPath, plugin]) (p.PluginInstallPath plugin)
    (w.log (Call.install plugin version uri bin)) h
  have hc2 : (downloadAndMove env version uri fos (filepath.Join [p.DownloadPath, plugin])
      (p.PluginInstallPath plugin) (w.log (Call.install plugin version uri bin))).2.calls.filter
        Call.isCleanup =
      w.calls.filter Call.isCleanup ++
        [Call.deferredRemoveAll (filepath.Join [p.DownloadPath, plugin]) err] := by
    rw [hc]
    simp [List.filter_append, List.filter_cons, Call.isCleanup]
  refine ⟨err, ?_, ?_⟩
  · rcases install_after env plugin version uri bin p fos w with h1 | ⟨binary, h1⟩
    · rw [h1]
      exact hc2
    · rw [h1, createOrUpdateLink_cleanups]
      exact hc2
  · intro he
    rcases install_after env plugin version uri bin p fos w with h1 | ⟨binary, h1⟩
    · rw [h1]
      exact hp he
    · rw [h1]
      exact createOrUpdateLink_absent env _ _ _ _ _ hlink (hp he)

theorem install_mkdir_failed (env : Env) (plugin version uri bin : String) (p : Paths)
    (fos : List FileOperation) (w : World)
    (h : (os.MkdirAll w.fs (filepath.Join [p.DownloadPath, plugin]) 0o755).1 ≠ none) :
    (install env plugin version uri bin p fos w).1 ≠ none
      ∧ (install env plugin version uri bin p fos w).2 =
        ⟨(os.MkdirAll w.fs (filepath.Join [p.DownloadPath, plugin]) 0o755).2,
          w.calls ++ [Call.install plugin version uri bin,
            Call.downloadAndMove version uri (filepath.Join [p.DownloadPath, plugin])
              (p.PluginInstallPath plugin)]⟩ := by
  obtain ⟨h1, h2⟩ := downloadAndMove_mkdir_failed env version uri fos
    (filepath.Join [p.DownloadPath, plugin]) (p.PluginInstallPath plugin)
    (w.log (Call.install plugin version uri bin)) h
  unfold install
  dsimp only
  split
  · rename_i x err w1 heq
    rw [heq] at h2
    simp only at h2
    rw [h2]
    simp [World.log]
  · rename_i dst w1 heq
    rw [heq] at h1
    simp at h1

theorem Install_lookup_failed (env : Env) (p : Paths) (plugin : Plugin) (forceHEAD : Bool)
    (w : World) (version : String) (installed : Bool) (e : Err)
    (h : env.findInstalledPluginVersion w.fs p.InstallPath p.BinPath plugin.Name
      = (version, installed, some e)) :
    Install env p plugin forceHEAD w =
      (some e, ⟨w.fs, w.calls ++ [Call.Install plugin.Name forceHEAD,
        Call.findInstalledPluginVersion p.InstallPath p.BinPath plugin.Name]⟩) := by
  unfold Install
  simp [World.log, h]

theorem Install_installed (env : Env) (p : Paths) (plugin : Plugin) (forceHEAD : Bool)
    (w : World) (version : String)
    (h : env.findInstalledPluginVersion w.fs p.InstallPath p.BinPath plugin.Name
      = (version, true, none)) :
    Install env p plugin forceHEAD w =
      (some Err.ErrIsAlreadyInstalled, ⟨w.fs, w.calls ++ [Call.Install plugin.Name forceHEAD,
        Call.findInstalledPluginVersion p.InstallPath p.BinPath plugin.Name]⟩) := by
  unfold Install
  simp [World.log, h]

theorem Install_no_target (env : Env) (p : Paths) (plugin : Plugin) (forceHEAD : Bool)
    (w : World) (version : String) (e : Err)
    (h : env.findInstalledPluginVersion w.fs p.InstallPath p.BinPath plugin.Name
      = (version, false, none))
    (ht : env.getDownloadTarget plugin forceHEAD = .error e) :
    Install env p plugin forceHEAD w =
      (some e, ⟨w.fs, w.calls ++ [Call.Install plugin.Name forceHEAD,
        Call.findInstalledPluginVersion p.InstallPath p.BinPath plugin.Name,
        Call.getDownloadTarget plugin.Name forceHEAD]⟩) := by
  unfold Install
  simp [World.log, h, ht]

theorem Install_reaches (env : Env) (p : Paths) (plugin : Plugin) (forceHEAD : Bool)
    (w : World) (version : String) (t : Target)
    (h : env.findInstalledPluginVersion w.fs p.InstallPath p.BinPath plugin.Name
      = (version, false, none))
    (ht : env.getDownloadTarget plugin forceHEAD = .ok t) :
    Install env p plugin forceHEAD w =
      install env plugin.Name t.version t.uri t.bin p t.fos
        ⟨w.fs, w.calls ++ [Call.Install plugin.Name forceHEAD,
          Call.findInstalledPluginVersion p.InstallPath p.BinPath plugin.Name,
          Call.getDownloadTarget plugin.Name forceHEAD]⟩ := by
  unfold Install
  simp [World.log, h, ht]

set_option maxRecDepth 100000 in
/-- C4 as stated fails, in two ways.  On the example file system in which the plugin is
installed and a download directory for it was left by an earlier run, `Install` returns
`ErrIsAlreadyInstalled` and the download directory "/tmp/krew-downloads/demo" is still there.
On the plain example file system, where no download directory exists, installing the plugin
whose archive holds a directory its owner may not read, a file in it, and a symbolic link,
fails at the symbolic link; the deferred removal of the download directory fails as well, its
error is dropped, and the download directory "/tmp/krew-downloads/locked" exists afterwards. -/
theorem Install_download_dir_counterexample :
    pathExists exLeftoverFS "/tmp/krew-downloads/demo" = true
      ∧ (Install exEnv exPaths exPlugin false ⟨exLeftoverFS, []⟩).1 =
          some Err.ErrIsAlreadyInstalled
      ∧ pathExists (Install exEnv exPaths exPlugin false ⟨exLeftoverFS, []⟩).2.fs
          (filepath.Join [exPaths.DownloadPath, exPlugin.Name]) = true
      ∧ filepath.Join [exPaths.DownloadPath, exLockedPlugin.Name] = "/tmp/krew-downloads/locked"
      ∧ pathExists exFS "/tmp/krew-downloads/locked" = false
      ∧ (Install exEnv exPaths exLockedPlugin true ⟨exFS, []⟩).1 =
          some (Err.wrapf "failed to dowload and move during installation, err: %v" []
            (Err.errorf "unable to handle file type %d for %q in tar" ["2", "s"]))
      ∧ (Install exEnv exPaths exLockedPlugin true ⟨exFS, []⟩).2.calls.filter Call.isCleanup =
          [Call.deferredRemoveAll "/tmp/krew-downloads/locked"
            (some (Err.sys "open" "/tmp/krew-downloads/locked" Errno.EACCES))]
      ∧ pathExists (Install exEnv exPaths exLockedPlugin true ⟨exFS, []⟩).2.fs
          "/tmp/krew-downloads/locked" = true := by
  refine ⟨?_, ?_, ?_, ?_, ?_, ?_, ?_, ?_⟩ <;> decide

/-- C4 (amended): provided the plugin's link path in the bin directory is not the download
directory `DownloadPath/plugin` itself.
Whenever `Install` gets as far as making the download directory (the lookup reports the plugin
not installed, the target is resolved and `os.MkdirAll` succeeds), the deferred
`os.RemoveAll` of the download directory runs exactly once, on every exit path after that (fetch
or verification failure, extraction failure, move failure, link failure, success), and if it
returns nil the download directory does not exist after `Install`; its error is dropped.
If nothing is at the download path when `Install` is invoked, then after `Install` nothing exists
there, on every exit path, unless that removal ran and failed.
On the exit paths before the directory is made (lookup error, already installed, target not
resolved) `Install` leaves the file system as it was and no removal runs, so a download
directory already present stays; when `os.MkdirAll` fails, `Install` fails, the file system is as
`os.MkdirAll` left it, and no removal runs. -/
theorem Install_download_dir_removed (env : Env) (p : Paths) (plugin : Plugin)
    (forceHEAD : Bool) (w : World)
    (hlink : keyOf (filepath.Join [p.BinPath, pluginNameToBin plugin.Name env.isWindows]) ≠
      keyOf (filepath.Join [p.DownloadPath, plugin.Name])) :
    (∀ version t,
        env.findInstalledPluginVersion w.fs p.InstallPath p.BinPath plugin.Name
          = (version, false, none) →
        env.getDownloadTarget plugin forceHEAD = .ok t →
        (os.MkdirAll w.fs (filepath.Join [p.DownloadPath, plugin.Name]) 0o755).1 = none →
        ∃ err, (Install env p plugin forceHEAD w).2.calls.filter Call.isCleanup =
            w.calls.filter Call.isCleanup ++
              [Call.deferredRemoveAll (filepath.Join [p.DownloadPath, plugin.Name]) err]
          ∧ (err = none →
            pathExists (Install env p plugin forceHEAD w).2.fs
              (filepath.Join [p.DownloadPath, plugin.Name]) = false))
      ∧ (w.fs.get (keyOf (filepath.Join [p.DownloadPath, plugin.Name])) = none →
        pathExists (Install env p plugin forceHEAD w).2.fs
            (filepath.Join [p.DownloadPath, plugin.Name]) = false
          ∨ ∃ e, (Install env p plugin forceHEAD w).2.calls.filter Call.isCleanup =
            w.calls.filter Call.isCleanup ++
              [Call.deferredRemoveAll (filepath.Join [p.DownloadPath, plugin.Name]) (some e)])
      ∧ (∀ version installed e,
        env.findInstalledPluginVersion w.fs p.InstallPath p.BinPath plugin.Name
          = (version, installed, some e) →
        (Install env p plugin forceHEAD w).2.fs = w.fs
          ∧ (Install env p plugin forceHEAD w).2.calls.filter Call.isCleanup =
            w.calls.filter Call.isCleanup)
      ∧ (∀ version,
        env.findInstalledPluginVersion w.fs p.InstallPath p.BinPath plugin.Name
          = (version, true, none) →
        (Install env p plugin forceHEAD w).2.fs = w.fs
          ∧ (Install env p plugin forceHEAD w).2.calls.filter Call.isCleanup =
            w.calls.filter Call.isCleanup)
      ∧ (∀ version e,
        env.findInstalledPluginVersion w.fs p.InstallPath p.BinPath plugin.Name
          = (version, false, none) →
        env.getDownloadTarget plugin forceHEAD = .error e →
        (Install env p plugin forceHEAD w).2.fs = w.fs
          ∧ (Install env p plugin forceHEAD w).2.calls.filter Call.isCleanup =
            w.calls.filter Call.isCleanup)
      ∧ (∀ version t,
        env.findInstalledPluginVersion w.fs p.InstallPath p.BinPath plugin.Name
          = (version, false, none) →
        env.getDownloadTarget plugin forceHEAD = .ok t →
        (os.MkdirAll w.fs (filepath.Join [p.DownloadPath, plugin.Name]) 0o755).1 ≠ none →
        (Install env p plugin forceHEAD w).1 ≠ none
          ∧ (Install env p plugin forceHEAD w).2.fs =
            (os.MkdirAll w.fs (filepath.Join [p.DownloadPath, plugin.Name]) 0o755).2
          ∧ (Install env p plugin forceHEAD w).2.calls.filter Call.isCleanup =
            w.calls.filter Call.isCleanup) := by
  have hA : ∀ version t,
      env.findInstalledPluginVersion w.fs p.InstallPath p.BinPath plugin.Name
        = (version, false, none) →
      env.getDownloadTarget plugin forceHEAD = .ok t →
      (os.MkdirAll w.fs (filepath.Join [p.DownloadPath, plugin.Name]) 0o755).1 = none →
      ∃ err, (Install env p plugin forceHEAD w).2.calls.filter Call.isCleanup =
          w.calls.filter Call.isCleanup ++
            [Call.deferredRemoveAll (filepath.Join [p.DownloadPath, plugin.Name]) err]
        ∧ (err = none →
          pathExists (Install env p plugin forceHEAD w).2.fs
            (filepath.Join [p.DownloadPath, plugin.Name]) = false) := by
    intro version t hf ht hmk
    rw [Install_reaches env p plugin forceHEAD w version t hf ht]
    obtain ⟨err, hc, hp⟩ := install_cleaned env plugin.Name t.version t.uri t.bin p t.fos
      ⟨w.fs, w.calls ++ [Call.Install plugin.Name forceHEAD,
        Call.findInstalledPluginVersion p.InstallPath p.BinPath plugin.Name,
        Call.getDownloadTarget plugin.Name forceHEAD]⟩ hlink hmk
    refine ⟨err, ?_, hp⟩
    rw [hc]
    simp [List.filter_append, List.filter_cons, Call.isCleanup]
  have hC1 : ∀ version installed e,
      env.findInstalledPluginVersion w.fs p.InstallPath p.BinPath plugin.Name
        = (version, installed, some e) →
      (Install env p plugin forceHEAD w).2.fs = w.fs
        ∧ (Install env p plugin forceHEAD w).2.calls.filter Call.isCleanup =
          w.calls.filter Call.isCleanup := by
    intro version installed e hf
    rw [Install_lookup_failed env p plugin forceHEAD w version installed e hf]
    simp [List.filter_append, List.filter_cons, Call.isCleanup]
  have hC2 : ∀ version,
      env.findInstalledPluginVersion w.fs p.InstallPath p.BinPath plugin.Name
        = (version, true, none) →
      (Install env p plugin forceHEAD w).2.fs = w.fs
        ∧ (Install env p plugin forceHEAD w).2.calls.filter Call.isCleanup =
          w.calls.filter Call.isCleanup := by
    intro version hf
    rw [Install_installed env p plugin forceHEAD w version hf]
    simp [List.filter_append, List.filter_cons, Call.isCleanup]
  have hC3 : ∀ version e,
      env.findInstalledPluginVersion w.fs p.InstallPath p.BinPath plugin.Name
        = (version, false, none) →
      env.getDownloadTarget plugin forceHEAD = .error e →
      (Install env p plugin forceHEAD w).2.fs = w.fs
        ∧ (Install env p plugin forceHEAD w).2.calls.filter Call.isCleanup =
          w.calls.filter Call.isCleanup := by
    intro version e hf ht
    rw [Install_no_target env p plugin forceHEAD w version e hf ht]
    simp [List.filter_append, List.filter_cons, Call.isCleanup]
  have hD : ∀ version t,
      env.findInstalledPluginVersion w.fs p.InstallPath p.BinPath plugin.Name
        = (version, false, none) →
      env.getDownloadTarget plugin forceHEAD = .ok t →
      (os.MkdirAll w.fs (filepath.Join [p.DownloadPath, plugin.Name]) 0o755).1 ≠ none →
      (Install env p plugin forceHEAD w).1 ≠ none
        ∧ (Install env p plugin forceHEAD w).2.fs =
          (os.MkdirAll w.fs (filepath.Join [p.DownloadPath, plugin.Name]) 0o755).2
        ∧ (Install env p plugin forceHEAD w).2.calls.filter Call.isCleanup =
          w.calls.filter Call.isCleanup := by
    intro version t hf ht hmk
    rw [Install_reaches env p plugin forceHEAD w version t hf ht]
    obtain ⟨h1, h2⟩ := install_mkdir_failed env plugin.Name t.version t.uri t.bin p t.fos
      ⟨w.fs, w.calls ++ [Call.Install plugin.Name forceHEAD,
        Call.findInstalledPluginVersion p.InstallPath p.BinPath plugin.Name,
        Call.getDownloadTarget plugin.Name forceHEAD]⟩ hmk
    refine ⟨h1, ?_, ?_⟩
    · rw [h2]
    · rw [h2]
      simp [List.filter_append, List.filter_cons, Call.isCleanup]
  refine ⟨hA, ?_, hC1, hC2, hC3, hD⟩
  intro hfresh
  have hbefore : pathExists w.fs (filepath.Join [p.DownloadPath, plugin.Name]) = false :=
    Lstat_absent _ _ hfresh
  cases hf : env.findInstalledPluginVersion w.fs p.InstallPath p.BinPath plugin.Name with
  | mk version rest =>
    cases rest with
    | mk installed oerr =>
      cases oerr with
      | some e =>
        left
        rw [(hC1 version installed e hf).1]
        exact hbefore
      | none =>
        cases installed with
        | true =>
          left
          rw [(hC2 version hf).1]
          exact hbefore
        | false =>
          cases ht : env.getDownloadTarget plugin forceHEAD with
          | error e =>
            left
            rw [(hC3 version e hf ht).1]
            exact hbefore
          | ok t =>
            by_cases hmk :
                (os.MkdirAll w.fs (filepath.Join [p.DownloadPath, plugin.Name]) 0o755).1 = none
            · obtain ⟨err, hc, hp⟩ := hA version t hf ht hmk
              cases err with
              | none =>
                left
                exact hp rfl
              | some e =>
                right
                exact ⟨e, hc⟩
            · left
              rw [(hD version t hf ht hmk).2.1]
              apply Lstat_absent
              rw [MkdirAll_fail_self _ _ _ hmk]
              exact hfresh

set_option maxRecDepth 100000 in
/-- C4 (amended) at the example plugin on the example file system: the link path is not the
download path, nothing is at the download path before, `Install` succeeds, the deferred removal
ran once and returned nil, and nothing exists at the download path afterwards. -/
theorem Install_download_dir_removed_witness :
    keyOf (filepath.Join [exPaths.BinPath, pluginNameToBin exPlugin.Name exEnv.isWindows]) ≠
        keyOf (filepath.Join [exPaths.DownloadPath, exPlugin.Name])
      ∧ (Install exEnv exPaths exPlugin false ⟨exFS, []⟩).1 = none
      ∧ (Install exEnv exPaths exPlugin false ⟨exFS, []⟩).2.calls.filter Call.isCleanup =
          [Call.deferredRemoveAll "/tmp/krew-downloads/demo" none]
      ∧ (pathExists (Install exEnv exPaths exPlugin false ⟨exFS, []⟩).2.fs
            (filepath.Join [exPaths.DownloadPath, exPlugin.Name]) = false
          ∨ ∃ e, (Install exEnv exPaths exPlugin false ⟨exFS, []⟩).2.calls.filter
              Call.isCleanup =
            ([] : List Call).filter Call.isCleanup ++
              [Call.deferredRemoveAll (filepath.Join [exPaths.DownloadPath, exPlugin.Name])
                (some e)]) :=
  ⟨by decide, by decide, by decide,
    (Install_download_dir_removed exEnv exPaths exPlugin false ⟨exFS, []⟩ (by decide)).2.1
      (by decide)⟩

end Krew
